import Mathlib

/-!
Verification of the corpus knowledge-graph core: a shallow embedding in Lean 4 of

* `corpus_core/loaders/neo4j_loader.py`  (`Neo4jLoader`),
* `dagster-congress/src/shared/base_graph_loader.py`  (`BaseGraphLoader`),
* `corpus_core/schema/ontology.py`  (`Ontology`, `NodeType`, `PropertyDef`),
* `corpus_core/schema/generators/neo4j_schema.py`  (`generate_neo4j_schema`),
* `corpus_core/extractors/base_extractor.py`  (`BaseEntityExtractor`),

together with theorems settling the frozen specification claims about identity
derivation, schema generation, relationship validation, fail-closed loading and
extractor error handling.

Modelling conventions:

* Python dict values are modelled by the `Json` inductive (every value these
  pipelines put in an entity's property map is a JSON scalar / array / object;
  Python floats appear as the exact rationals they denote).
* Python dicts are insertion-ordered association lists (`dget` / `dinsert` /
  `dmerge` mirror `d[k]`, `d.get`, `{**a, **b}` and Neo4j `SET n += props`).
* Python truthiness (`if x:`, `x or y`) is `jsonTruthy` / `pyOr`.
* `hashlib.sha256(...).hexdigest()` is implemented bit-for-bit (`sha256hex`,
  checked below against the standard test vectors), `str.encode()` is UTF-8.
* The Neo4j store is a state value (`GraphStore`); `session.run` of the three
  fixed Cypher statements used by the loaders becomes an explicit state
  transformer (`mergeNode`, `edgeWriteAttempt`) with MERGE = match-or-create
  and `SET x += props` = dict merge.
* Exceptions that the Python code can raise after the modelled entry points
  are an explicit `Except PyErr` channel; code paths that cannot raise are
  total functions.
-/

set_option maxRecDepth 100000

/-- Python/JSON values as used by these pipelines.  `num` carries the exact
rational a Python int/float denotes (no arithmetic is ever performed on it in
the modelled code, so this is faithful). -/
inductive Json where
  | null : Json
  | bool : Bool → Json
  | num : Rat → Json
  | str : String → Json
  | arr : List Json → Json
  | obj : List (String × Json) → Json

mutual

/-- Structural equality of JSON values (Python `==` on these values). -/
def jsonBEq : Json → Json → Bool
  | .null, .null => true
  | .bool a, .bool b => a == b
  | .num a, .num b => a == b
  | .str a, .str b => a == b
  | .arr xs, .arr ys => jsonBEqList xs ys
  | .obj xs, .obj ys => jsonBEqObj xs ys
  | _, _ => false

/-- Structural equality of JSON arrays, element-wise. -/
def jsonBEqList (as bs : List Json) : Bool :=
  match as, bs with
  | x :: xs, y :: ys => jsonBEq x y && jsonBEqList xs ys
  | [], [] => true
  | _, _ => false

/-- Structural equality of JSON objects, pairwise in order. -/
def jsonBEqObj (as bs : List (String × Json)) : Bool :=
  match as, bs with
  | (k1, v1) :: xs, (k2, v2) :: ys => k1 == k2 && jsonBEq v1 v2 && jsonBEqObj xs ys
  | [], [] => true
  | _, _ => false

end

instance : BEq Json := ⟨jsonBEq⟩

/-- Python truthiness of a value (`if x:`): `None`, `False`, `0`, `""`, `[]`,
`{}` are falsy, everything else truthy. -/
def jsonTruthy : Json → Bool
  | .null => false
  | .bool b => b
  | .num q => q != 0
  | .str s => s != ""
  | .arr xs => !xs.isEmpty
  | .obj kvs => !kvs.isEmpty

/-- Python truthiness of a `dict.get` result (`None` when the key is absent). -/
def optTruthy (o : Option Json) : Bool :=
  match o with
  | some v => jsonTruthy v
  | none => false

/-- Dict lookup `d.get(k)` on an insertion-ordered association list. -/
def dget {α : Type} (d : List (String × α)) (k : String) : Option α :=
  match d with
  | [] => none
  | (k0, v0) :: rest => if k0 = k then some v0 else dget rest k

/-- `k in d` for a Python dict. -/
def dcontains {α : Type} (d : List (String × α)) (k : String) : Bool :=
  match d with
  | [] => false
  | (k0, _) :: rest => k0 = k || dcontains rest k

/-- Dict update `d[k] = v`: overwrite in place if the key exists (preserving
its position, as CPython does), else append. -/
def dinsert {α : Type} (d : List (String × α)) (k : String) (v : α) : List (String × α) :=
  match d with
  | [] => [(k, v)]
  | (k0, v0) :: rest => if k0 = k then (k, v) :: rest else (k0, v0) :: dinsert rest k v

/-- Dict merge `{**a, **b}` / `SET n += b`: apply every update of `b` to `a`
in order. -/
def dmerge {α : Type} (a b : List (String × α)) : List (String × α) :=
  b.foldl (fun acc kv => dinsert acc kv.1 kv.2) a

/-- `str(value)` as the loaders apply it to property values.  String values
render as themselves (the only case the identity-derivation claims exercise);
the rendering of non-string scalars and containers is modelled structurally
(exact CPython float/list formatting is not reproduced, and no claim depends
on it). -/
def pyStr : Json → String
  | .null => "None"
  | .bool b => if b then "True" else "False"
  | .num q => toString q
  | .str s => s
  | .arr _ => "[...]"
  | .obj _ => "\x7b...\x7d"

/-- Python `x or y` for an optional value `x` (absent key or falsy value falls
through to `y`). -/
def pyOr (x : Option Json) (y : Json) : Json :=
  match x with
  | some v => if jsonTruthy v then v else y
  | none => y

/-! ## SHA-256 (`hashlib.sha256(key.encode()).hexdigest()`)

A bit-for-bit implementation over `Nat` with explicit reduction mod `2^32`,
validated below against the FIPS 180-4 test vectors. -/

/-- `2^32`, the word modulus of SHA-256. -/
def M32 : Nat := 4294967296

/-- Addition mod `2^32`. -/
def add32 (a b : Nat) : Nat := (a + b) % M32

/-- Right rotation of a 32-bit word. -/
def rotr32 (n x : Nat) : Nat := ((x >>> n) ||| (x <<< (32 - n))) % M32

/-- SHA-256 Σ₀. -/
def bsig0 (x : Nat) : Nat := rotr32 2 x ^^^ rotr32 13 x ^^^ rotr32 22 x

/-- SHA-256 Σ₁. -/
def bsig1 (x : Nat) : Nat := rotr32 6 x ^^^ rotr32 11 x ^^^ rotr32 25 x

/-- SHA-256 σ₀. -/
def ssig0 (x : Nat) : Nat := rotr32 7 x ^^^ rotr32 18 x ^^^ (x >>> 3)

/-- SHA-256 σ₁. -/
def ssig1 (x : Nat) : Nat := rotr32 17 x ^^^ rotr32 19 x ^^^ (x >>> 10)

/-- The 64 SHA-256 round constants. -/
def shaK : List Nat := [
  1116352408, 1899447441, 3049323471, 3921009573, 961987163,
  1508970993, 2453635748, 2870763221, 3624381080, 310598401,
  607225278, 1426881987, 1925078388, 2162078206, 2614888103,
  3248222580, 3835390401, 4022224774, 264347078, 604807628,
  770255983, 1249150122, 1555081692, 1996064986, 2554220882,
  2821834349, 2952996808, 3210313671, 3336571891, 3584528711,
  113926993, 338241895, 666307205, 773529912, 1294757372,
  1396182291, 1695183700, 1986661051, 2177026350, 2456956037,
  2730485921, 2820302411, 3259730800, 3345764771, 3516065817,
  3600352804, 4094571909, 275423344, 430227734, 506948616,
  659060556, 883997877, 958139571, 1322822218, 1537002063,
  1747873779, 1955562222, 2024104815, 2227730452, 2361852424,
  2428436474, 2756734187, 3204031479, 3329325298]

/-- The SHA-256 initial hash state. -/
def shaH0 : List Nat := [
  1779033703, 3144134277, 1013904242,
  2773480762, 1359893119, 2600822924,
  528734635, 1541459225]

/-- The 8-byte big-endian encoding of the message bit length. -/
def lenBytesBE (ml : Nat) : List Nat :=
  (List.range 8).map (fun i => (ml >>> (8 * (7 - i))) % 256)

/-- SHA-256 padding: `0x80`, zeros to 56 mod 64, then the bit length. -/
def padMsg (msg : List Nat) : List Nat :=
  let zeros := (64 + 56 - ((msg.length + 1) % 64)) % 64
  msg ++ [0x80] ++ List.replicate zeros 0 ++ lenBytesBE (8 * msg.length)

/-- Big-endian 32-bit words from a byte list. -/
def wordsOfBytes : List Nat → List Nat
  | a :: b :: c :: d :: rest => (((a * 256 + b) * 256 + c) * 256 + d) :: wordsOfBytes rest
  | _ => []

/-- The `i`-th 64-byte block of a padded message. -/
def blockAt (l : List Nat) (i : Nat) : List Nat := (l.drop (64 * i)).take 64

/-- Extend 16 message-schedule words to 64. -/
def scheduleW (w16 : List Nat) : List Nat :=
  (List.range 48).foldl
    (fun w _ =>
      w ++ [add32 (add32 (ssig1 (w.getD (w.length - 2) 0)) (w.getD (w.length - 7) 0))
            (add32 (ssig0 (w.getD (w.length - 15) 0)) (w.getD (w.length - 16) 0))])
    w16

/-- One SHA-256 compression round on the 8-word working state. -/
def shaRound (st : List Nat) (k : Nat) (w : Nat) : List Nat :=
  match st with
  | [a, b, c, d, e, f, g, h] =>
    let ch := (e &&& f) ^^^ ((e ^^^ (M32 - 1)) &&& g)
    let maj := Nat.xor (Nat.xor (a &&& b) (a &&& c)) (b &&& c)
    let t1 := add32 (add32 (add32 h (bsig1 e)) (add32 ch k)) w
    let t2 := add32 (bsig0 a) maj
    [add32 t1 t2, a, b, c, add32 d t1, e, f, g]
  | other => other

/-- Compress one 64-byte block into the hash state. -/
def compressBlock (h : List Nat) (w16 : List Nat) : List Nat :=
  let w := scheduleW w16
  let st := (List.range 64).foldl (fun st t => shaRound st (shaK.getD t 0) (w.getD t 0)) h
  List.zipWith add32 h st

/-- SHA-256 of a byte list, as its 32 digest bytes. -/
def sha256 (msg : List Nat) : List Nat :=
  let padded := padMsg msg
  let hs := (List.range (padded.length / 64)).foldl
    (fun h i => compressBlock h (wordsOfBytes (blockAt padded i))) shaH0
  hs.flatMap (fun v => [(v >>> 24) % 256, (v >>> 16) % 256, (v >>> 8) % 256, v % 256])

/-- A lowercase hex digit. -/
def hexDigit (n : Nat) : Char :=
  if n < 10 then Char.ofNat (48 + n) else Char.ofNat (87 + n)

/-- Lowercase hex rendering of a byte list, two digits per byte. -/
def hexOfBytes (bs : List Nat) : List Char :=
  bs.flatMap (fun b => [hexDigit (b / 16), hexDigit (b % 16)])

/-- UTF-8 encoding of one character (`str.encode()`). -/
def utf8EncChar (c : Char) : List Nat :=
  let n := c.toNat
  if n < 0x80 then [n]
  else if n < 0x800 then [0xC0 ||| (n >>> 6), 0x80 ||| (n &&& 0x3F)]
  else if n < 0x10000 then
    [0xE0 ||| (n >>> 12), 0x80 ||| ((n >>> 6) &&& 0x3F), 0x80 ||| (n &&& 0x3F)]
  else [0xF0 ||| (n >>> 18), 0x80 ||| ((n >>> 12) &&& 0x3F),
        0x80 ||| ((n >>> 6) &&& 0x3F), 0x80 ||| (n &&& 0x3F)]

/-- UTF-8 encoding of a string (`str.encode()`). -/
def utf8Bytes (s : String) : List Nat := s.data.flatMap utf8EncChar

/-- `hashlib.sha256(s.encode()).hexdigest()`: the 64-character lowercase hex
digest of a string. -/
def sha256hex (s : String) : String := String.mk (hexOfBytes (sha256 (utf8Bytes s)))

/-- Python `s[:16]` on an ASCII string. -/
def strTake16 (s : String) : String := String.mk (s.data.take 16)

/-! ## JSON parsing (`json.loads`)

A model of `json.loads` adequate for the extractor claims: the JSON grammar
(null / booleans / numbers / strings with escapes / arrays / objects), fuel
bounded, returning `none` exactly where Python raises `JSONDecodeError`.
(The CPython extensions `NaN`/`Infinity` are floating-point values and are not
modelled; no claim touches them.) -/

/-- Skip JSON whitespace. -/
def skipWs : List Char → List Char
  | c :: cs => if c = ' ' ∨ c = '\t' ∨ c = '\n' ∨ c = '\r' then skipWs cs else c :: cs
  | [] => []

/-- Digits to a natural number. -/
def digitsToNat (ds : List Char) : Nat := ds.foldl (fun a c => a * 10 + (c.toNat - 48)) 0

/-- The rational `±m · 10^e10` (signed decimal scientific value), built with
`mkRat` so that it evaluates by kernel reduction. -/
def sciRat (neg : Bool) (m : Nat) (e10 : Int) : Rat :=
  let mi : Int := if neg then -(m : Int) else (m : Int)
  if 0 ≤ e10 then mkRat (mi * (10 : Int) ^ e10.toNat) 1
  else mkRat mi ((10 : Nat) ^ (-e10).toNat)

/-- Parse an optional exponent part of a JSON number. -/
def parseExpOpt (cs : List Char) : Option (Int × List Char) :=
  match cs with
  | c :: r =>
    if c = 'e' ∨ c = 'E' then
      let (esign, r1) : Int × List Char :=
        match r with
        | '+' :: r2 => (1, r2)
        | '-' :: r2 => (-1, r2)
        | _ => (1, r)
      let (ed, r2) := r1.span Char.isDigit
      if ed.isEmpty then none else some (esign * (digitsToNat ed : Int), r2)
    else some (0, c :: r)
  | [] => some (0, [])

/-- Parse a JSON number. -/
def parseNumber (cs : List Char) : Option (Rat × List Char) :=
  let neg : Bool := cs.head? == some '-'
  let cs1 : List Char := if neg then cs.drop 1 else cs
  let (ip, cs2) := cs1.span Char.isDigit
  if ip.isEmpty then none else
  let withFrac : Option ((Nat × Nat) × List Char) :=
    match cs2 with
    | '.' :: r =>
      let (fp, cs3) := r.span Char.isDigit
      if fp.isEmpty then none
      else some ((digitsToNat (ip ++ fp), fp.length), cs3)
    | _ => some ((digitsToNat ip, 0), cs2)
  match withFrac with
  | none => none
  | some ((m, flen), cs4) =>
    match parseExpOpt cs4 with
    | none => none
    | some (e, cs5) =>
      some (sciRat neg m (e - (flen : Int)), cs5)

/-- Parse the body of a JSON string after the opening quote. -/
def parseStrChars : List Char → Option (List Char × List Char)
  | [] => none
  | '"' :: r => some ([], r)
  | '\\' :: 'u' :: a :: b :: c :: d :: r =>
    if a.isDigit ∨ ('a' ≤ a ∧ a ≤ 'f') ∨ ('A' ≤ a ∧ a ≤ 'F') then
      match parseStrChars r with
      | some (cs, rest) =>
        let hv : Char → Nat := fun x =>
          if x.isDigit then x.toNat - 48 else if 'a' ≤ x then x.toNat - 87 else x.toNat - 55
        some (Char.ofNat (((hv a * 16 + hv b) * 16 + hv c) * 16 + hv d) :: cs, rest)
      | none => none
    else none
  | '\\' :: e :: r =>
    let dec : Option Char :=
      if e = '"' then some '"'
      else if e = '\\' then some '\\'
      else if e = '/' then some '/'
      else if e = 'b' then some (Char.ofNat 8)
      else if e = 'f' then some (Char.ofNat 12)
      else if e = 'n' then some '\n'
      else if e = 'r' then some '\r'
      else if e = 't' then some '\t'
      else none
    match dec with
    | some ch =>
      match parseStrChars r with
      | some (cs, rest) => some (ch :: cs, rest)
      | none => none
    | none => none
  | c :: r =>
    match parseStrChars r with
    | some (cs, rest) => some (c :: cs, rest)
    | none => none

mutual

/-- Parse one JSON value (fuel-bounded recursive descent). -/
def parseVal : Nat → List Char → Option (Json × List Char)
  | 0, _ => none
  | Nat.succ n, cs =>
    match skipWs cs with
    | 'n' :: 'u' :: 'l' :: 'l' :: rest =>
      some (Json.null, rest)
    | 't' :: 'r' :: 'u' :: 'e' :: rest =>
      some (Json.bool true, rest)
    | 'f' :: 'a' :: 'l' :: 's' :: 'e' :: rest =>
      some (Json.bool false, rest)
    | '"' :: rest =>
      match parseStrChars rest with
      | some (cs1, r1) => some (Json.str (String.mk cs1), r1)
      | none => none
    | '[' :: rest =>
      (match skipWs rest with
       | ']' :: r1 => some (Json.arr [], r1)
       | _ =>
         match parseItems n rest with
         | some (vs, r1) => some (Json.arr vs, r1)
         | none => none)
    | '{' :: rest =>
      (match skipWs rest with
       | '}' :: r1 => some (Json.obj [], r1)
       | _ =>
         match parseMembers n rest with
         | some (kvs, r1) => some (Json.obj kvs, r1)
         | none => none)
    | other =>
      match parseNumber other with
      | some (q, r1) => some (Json.num q, r1)
      | none => none

/-- Parse the comma-separated items of a nonempty JSON array. -/
def parseItems : Nat → List Char → Option (List Json × List Char)
  | 0, _ => none
  | Nat.succ n, cs =>
    match parseVal n cs with
    | none => none
    | some (v, r1) =>
      match skipWs r1 with
      | ',' :: r2 =>
        (match parseItems n r2 with
         | some (vs, r3) => some (v :: vs, r3)
         | none => none)
      | ']' :: r2 => some ([v], r2)
      | _ => none

/-- Parse the members of a nonempty JSON object. -/
def parseMembers : Nat → List Char → Option (List (String × Json) × List Char)
  | 0, _ => none
  | Nat.succ n, cs =>
    match skipWs cs with
    | '"' :: r =>
      (match parseStrChars r with
       | none => none
       | some (kcs, r1) =>
         match skipWs r1 with
         | ':' :: r2 =>
           (match parseVal n r2 with
            | none => none
            | some (v, r3) =>
              match skipWs r3 with
              | ',' :: r4 =>
                (match parseMembers n r4 with
                 | some (kvs, r5) => some ((String.mk kcs, v) :: kvs, r5)
                 | none => none)
              | '}' :: r4 => some ([(String.mk kcs, v)], r4)
              | _ => none)
         | _ => none)
    | _ => none

end

/-- `json.loads`: parse a complete JSON document or fail (`JSONDecodeError`
becomes `none`). -/
def json_loads (s : String) : Option Json :=
  match parseVal (2 * s.data.length + 2) s.data with
  | some (v, rest) => if skipWs rest = [] then some v else none
  | none => none

/-! ## Metamodel (`corpus_core/schema/ontology.py`)

`PropertyType`, `PropertyDef`, `RelationshipType`, `MCPTool`, `NodeType` and
the `Ontology` registry.  A Python dict keyed by name (guaranteed
insertion-ordered in CPython 3.7+) is an association list updated by
`dinsert`. -/

/-- Supported property types (`PropertyType`). -/
inductive PropertyType where
  | string | integer | float | boolean | datetime | date | text | vector
deriving DecidableEq, Repr

/-- Property definition with type and constraints (`PropertyDef`). -/
structure PropertyDef where
  name : String
  prop_type : PropertyType
  required : Bool
  indexed : Bool
  unique : Bool
  fulltext : Bool
  description : String
deriving DecidableEq, Repr

/-- MCP tool definition (`MCPTool`); `parameters` is a name-to-type dict. -/
structure MCPTool where
  name : String
  description : String
  cypher_template : String
  parameters : List (String × String)
deriving DecidableEq, Repr

/-- Relationship definition between node types (`RelationshipType`). -/
structure RelationshipType where
  name : String
  from_node : String
  to_node : String
  properties : List PropertyDef
  description : String
deriving DecidableEq, Repr

/-- Node type definition (`NodeType`). -/
structure NodeType where
  name : String
  properties : List PropertyDef
  description : String
  domain : String
  schema_org_type : Option String
  superclass : Option String
  mcp_tools : List MCPTool
  additional_labels : List String
deriving DecidableEq, Repr

/-- Ontology registry for a domain (`Ontology.__init__` plus its two dicts). -/
structure Ontology where
  domain : String
  version : String
  description : String
  nodes : List (String × NodeType)
  relationships : List (String × RelationshipType)
deriving DecidableEq, Repr

/-- `Ontology(domain, version, description)`: empty registries. -/
def Ontology.init (domain version description : String) : Ontology :=
  { domain := domain, version := version, description := description,
    nodes := [], relationships := [] }

/-- `register_node_type`: `self._nodes[node_type.name] = node_type`. -/
def Ontology.register_node_type (o : Ontology) (nt : NodeType) : Ontology :=
  { o with nodes := dinsert o.nodes nt.name nt }

/-- `register_relationship_type`: `self._relationships[rel_type.name] = rel_type`. -/
def Ontology.register_relationship_type (o : Ontology) (rt : RelationshipType) : Ontology :=
  { o with relationships := dinsert o.relationships rt.name rt }

/-- `get_node_type`: dict lookup, `None` when absent. -/
def Ontology.get_node_type (o : Ontology) (name : String) : Option NodeType :=
  dget o.nodes name

/-- `get_all_node_types`: `list(self._nodes.values())` in insertion order. -/
def Ontology.get_all_node_types (o : Ontology) : List NodeType :=
  o.nodes.map (fun kv => kv.2)

/-- `get_all_relationship_types`: `list(self._relationships.values())`. -/
def Ontology.get_all_relationship_types (o : Ontology) : List RelationshipType :=
  o.relationships.map (fun kv => kv.2)

/-! ## Graph-store schema generator
(`corpus_core/schema/generators/neo4j_schema.py`)

Each emitted Cypher statement is one list entry, exactly as
`generate_neo4j_schema` appends them; the result string joins them with a
newline.  Literal braces, backticks and apostrophes of the vector-index
statement are written with `\x7b`-style escapes. -/

/-- `str.lower()` as the generator applies it to type names (character-wise
ASCII case mapping; schema type names are ASCII). -/
def pyLower (s : String) : String := String.mk (s.data.map Char.toLower)

/-- The uniqueness-constraint statement for a node property. -/
def uniqueStmt (n p : String) : String :=
  "CREATE CONSTRAINT " ++ pyLower n ++ "_" ++ p ++
    "_unique IF NOT EXISTS FOR (n:" ++ n ++ ") REQUIRE n." ++ p ++ " IS UNIQUE;"

/-- The NOT NULL constraint statement for a required node property. -/
def existsStmt (n p : String) : String :=
  "CREATE CONSTRAINT " ++ pyLower n ++ "_" ++ p ++
    "_exists IF NOT EXISTS FOR (n:" ++ n ++ ") REQUIRE n." ++ p ++ " IS NOT NULL;"

/-- The standard index statement for a node property. -/
def idxStmt (n p : String) : String :=
  "CREATE INDEX " ++ pyLower n ++ "_" ++ p ++
    "_idx IF NOT EXISTS FOR (n:" ++ n ++ ") ON (n." ++ p ++ ");"

/-- The full-text index statement for a node property. -/
def ftStmt (n p : String) : String :=
  "CREATE FULLTEXT INDEX " ++ pyLower n ++ "_" ++ p ++
    "_fulltext IF NOT EXISTS FOR (n:" ++ n ++ ") ON EACH [n." ++ p ++ "];"

/-- The 384-dimension cosine vector index statement for a node property. -/
def vecStmt (n p : String) : String :=
  "CREATE VECTOR INDEX " ++ pyLower n ++ "_" ++ p ++
    "_vector IF NOT EXISTS FOR (n:" ++ n ++ ") ON (n." ++ p ++
    ") OPTIONS \x7bindexConfig: \x7b\x60vector.dimensions\x60: 384, \x60vector.similarity_function\x60: \x27cosine\x27\x7d\x7d;"

/-- The standard index statement for a relationship property. -/
def relIdxStmt (n p : String) : String :=
  "CREATE INDEX " ++ pyLower n ++ "_" ++ p ++
    "_idx IF NOT EXISTS FOR ()-[r:" ++ n ++ "]-() ON (r." ++ p ++ ");"

/-- The constraint statements one property contributes
(`if prop.unique: ... elif prop.required and not prop.unique: ...`). -/
def constraintLines (ntName : String) (p : PropertyDef) : List String :=
  if p.unique then [uniqueStmt ntName p.name]
  else if p.required && !p.unique then [existsStmt ntName p.name]
  else []

/-- The index statements one property contributes
(`if prop.indexed and not prop.unique: ... elif prop.fulltext: ...
elif prop.prop_type == PropertyType.VECTOR: ...`). -/
def indexLines (ntName : String) (p : PropertyDef) : List String :=
  if p.indexed && !p.unique then [idxStmt ntName p.name]
  else if p.fulltext then [ftStmt ntName p.name]
  else if p.prop_type = PropertyType.vector then [vecStmt ntName p.name]
  else []

/-- One node type's block in the constraints section. -/
def nodeConstraintBlock (nt : NodeType) : List String :=
  ("// " ++ nt.name ++ " constraints") ::
    (nt.properties.flatMap (constraintLines nt.name) ++ [""])

/-- One node type's block in the indexes section. -/
def nodeIndexBlock (nt : NodeType) : List String :=
  ("// " ++ nt.name ++ " indexes") ::
    (nt.properties.flatMap (indexLines nt.name) ++ [""])

/-- One relationship type's index statements. -/
def relIndexLines (rt : RelationshipType) : List String :=
  rt.properties.flatMap (fun p => if p.indexed then [relIdxStmt rt.name p.name] else [])

/-- The fixed banner line of `=` signs. -/
def bannerLine : String := "// " ++ String.mk (List.replicate 76 '=')

/-- The header lines of the generated schema. -/
def introLines (o : Ontology) : List String :=
  ["// Auto-generated Neo4j schema from ontology",
   "// DO NOT EDIT - regenerate with schema generator",
   "// Ontology: " ++ o.domain ++ " v" ++ o.version,
   "",
   bannerLine,
   "// Constraints",
   bannerLine,
   ""]

/-- The header lines of the indexes section. -/
def indexHeaderLines : List String := [bannerLine, "// Indexes", bannerLine, ""]

/-- The header lines of the relationship-indexes section. -/
def relHeaderLines : List String :=
  [bannerLine, "// Relationship Indexes", bannerLine, ""]

/-- The full statement list `generate_neo4j_schema` builds before joining. -/
def schemaStatements (o : Ontology) : List String :=
  introLines o
    ++ o.get_all_node_types.flatMap nodeConstraintBlock
    ++ indexHeaderLines
    ++ o.get_all_node_types.flatMap nodeIndexBlock
    ++ relHeaderLines
    ++ o.get_all_relationship_types.flatMap relIndexLines

/-- `generate_neo4j_schema`: the statements joined by newlines. -/
def generate_neo4j_schema (o : Ontology) : String :=
  "\n".intercalate (schemaStatements o)

/-! ## Extracted entities (`corpus_core/models/entity.py`)

`ExtractedEntity` after pydantic validation: `entity_type` is a string,
`properties` a dict, `relationships` a list of dicts, `confidence` a float in
[0,1].  The JSON-LD annotation dict built by the extractor is captured
structurally (its constant `@context` is omitted; nothing reads it). -/

/-- The JSON-LD annotation `_annotate_entity` attaches: the `@type` value, the
`kg:entityType` value, the `kg:domain` string and, when present, the
`mcp:tools` list. -/
structure JsonLDSchema where
  at_type : Json
  kg_entity_type : Json
  kg_domain : String
  mcp_tools : Option (List Json)

mutual

/-- A small JSON renderer standing in for `json.dumps` (the loaders store the
serialized annotation as an opaque node property; no claim reads it back, so
the exact CPython float/escape formatting is not reproduced). -/
def dumpJson : Json → String
  | .null => "null"
  | .bool b => if b then "true" else "false"
  | .num q => toString q
  | .str s => "\x22" ++ s ++ "\x22"
  | .arr xs => "[" ++ dumpJsonList xs ++ "]"
  | .obj kvs => "\x7b" ++ dumpJsonObj kvs ++ "\x7d"

/-- Render array elements. -/
def dumpJsonList : List Json → String
  | [] => ""
  | [x] => dumpJson x
  | x :: xs => dumpJson x ++ ", " ++ dumpJsonList xs

/-- Render object members. -/
def dumpJsonObj : List (String × Json) → String
  | [] => ""
  | [(k, v)] => "\x22" ++ k ++ "\x22: " ++ dumpJson v
  | (k, v) :: kvs => "\x22" ++ k ++ "\x22: " ++ dumpJson v ++ ", " ++ dumpJsonObj kvs

end

/-- Serialize the JSON-LD annotation (`json.dumps(entity.jsonld_schema)`). -/
def jsonldDumps (j : JsonLDSchema) : String :=
  dumpJson (Json.obj
    ([("@type", j.at_type), ("kg:entityType", j.kg_entity_type),
      ("kg:domain", Json.str j.kg_domain)] ++
     (match j.mcp_tools with
      | some ts => [("mcp:tools", Json.arr ts)]
      | none => [])))

/-- An extracted entity (`ExtractedEntity`, post-pydantic). -/
structure ExtractedEntity where
  entity_type : String
  properties : List (String × Json)
  relationships : List (List (String × Json))
  confidence : Rat
  source_span : String
  jsonld_schema : JsonLDSchema
  domain : String
  embedding : Option Json

/-! ## The graph store

`session.run` of the loaders' three fixed Cypher statements, as a state
transformer on an explicit store.  `MERGE (n:L1:L2 {id: $id})` matches a node
carrying all the pattern's labels whose `id` property equals the parameter,
else creates one; `SET n += $props` merges the dict; the relationship query
`MATCH`es both endpoints by label + id and merge-creates the edge. -/

/-- A stored node: its labels and its property dict. -/
structure StoreNode where
  labels : List String
  props : List (String × Json)

/-- A stored edge, identified by its endpoint patterns and type. -/
structure StoreEdge where
  from_type : String
  from_id : Json
  to_type : String
  to_id : Json
  rel_type : String
  props : List (String × Json)

/-- The graph-store state. -/
structure GraphStore where
  nodes : List StoreNode
  edges : List StoreEdge

/-- Does a node match `(:L1:L2… {id: $id})`? -/
def nodeMatches (n : StoreNode) (labels : List String) (id : Json) : Bool :=
  labels.all (fun l => n.labels.contains l) && (dget n.props "id" == some id)

/-- `MERGE (n:… {id: $id}) SET n += $props`. -/
def mergeNode (st : GraphStore) (labels : List String) (id : Json)
    (props : List (String × Json)) : GraphStore :=
  if st.nodes.any (fun n => nodeMatches n labels id) then
    { st with nodes := st.nodes.map (fun n =>
        if nodeMatches n labels id then { n with props := dmerge n.props props } else n) }
  else
    { st with nodes := st.nodes ++ [⟨labels, dmerge [("id", id)] props⟩] }

/-- Does the store contain a node matching `(:L {id: $id})`? -/
def storeHasNode (st : GraphStore) (label : String) (id : Json) : Bool :=
  st.nodes.any (fun n => n.labels.contains label && (dget n.props "id" == some id))

/-- Does an edge match the relationship pattern being merged? -/
def edgeMatches (e : StoreEdge) (from_type : String) (from_id : Json)
    (to_type : String) (to_id : Json) (rel_type : String) : Bool :=
  e.from_type == from_type && jsonBEq e.from_id from_id &&
  e.to_type == to_type && jsonBEq e.to_id to_id && e.rel_type == rel_type

/-- The relationship query: `MATCH` both endpoints, then
`MERGE (a)-[r:T]->(b) SET r += $props`.  Returns whether a row came back
(both endpoints found) and the updated store. -/
def edgeWriteAttempt (st : GraphStore) (from_id : Json) (from_type : String)
    (to_id : Json) (to_type rel_type : String) (props : List (String × Json)) :
    Bool × GraphStore :=
  if storeHasNode st from_type from_id && storeHasNode st to_type to_id then
    if st.edges.any (fun e => edgeMatches e from_type from_id to_type to_id rel_type) then
      (true, { st with edges := st.edges.map (fun e =>
        if edgeMatches e from_type from_id to_type to_id rel_type then
          { e with props := dmerge e.props props } else e) })
    else
      (true, { st with edges :=
        st.edges ++ [⟨from_type, from_id, to_type, to_id, rel_type, props⟩] })
  else (false, st)

/-! ## `Neo4jLoader` (`corpus_core/loaders/neo4j_loader.py`)

The connection parameters of `__init__` are external I/O and drop out; the
loader value keeps the embedding service and the validation registry.
`load_entity` / `load_relationship` / `load_entities` /
`load_entity_with_relationships` become state transformers on `GraphStore`. -/

/-- The `Neo4jLoader` state that survives `__init__`. -/
structure Neo4jLoader where
  embedding_service : Option (String → Json)
  valid_relationships : List String

/-- `Neo4jLoader.__init__`: `self._valid_relationships = valid_relationships
or set()`. -/
def Neo4jLoader.init (embedding_service : Option (String → Json))
    (valid_relationships : Option (List String)) : Neo4jLoader :=
  ⟨embedding_service, valid_relationships.getD []⟩

/-- The key list of `Neo4jLoader._get_text_representation`. -/
def textReprKeys : List String :=
  ["name", "title", "number", "summary", "description", "content"]

/-- `_get_text_representation`: entity type plus the present key properties,
space-joined. -/
def Neo4jLoader._get_text_representation (e : ExtractedEntity) : String :=
  " ".intercalate
    (e.entity_type :: textReprKeys.filterMap (fun k => (dget e.properties k).map pyStr))

/-- The identity priority key list of `Neo4jLoader._generate_id`. -/
def idPriorityKeys : List String :=
  ["number", "bioguide_id", "system_code", "cik", "name", "title"]

/-- The key string `_generate_id` hashes: `entity_type`, then the value of the
first priority key present in the properties (loop with `break`), joined by
`":"`. -/
def genIdKeyStr (e : ExtractedEntity) : String :=
  let key_parts := e.entity_type ::
    (match idPriorityKeys.findSome? (fun k => dget e.properties k) with
     | some v => [pyStr v]
     | none => [])
  ":".intercalate key_parts

/-- `Neo4jLoader._generate_id`:
`hashlib.sha256(key_str.encode()).hexdigest()[:16]`. -/
def Neo4jLoader._generate_id (e : ExtractedEntity) : String :=
  strTake16 (sha256hex (genIdKeyStr e))

/-- The node identity `load_entity` uses:
`entity.properties.get("id") or self._generate_id(entity)`. -/
def loadEntityIdent (e : ExtractedEntity) : Json :=
  pyOr (dget e.properties "id") (Json.str (Neo4jLoader._generate_id e))

/-- `Neo4jLoader.load_entity`: build props, derive the id, merge the node;
the MERGE always returns a row, so the id comes back. -/
def Neo4jLoader.load_entity (L : Neo4jLoader) (st : GraphStore)
    (e : ExtractedEntity) (additional_labels : List String) :
    Option Json × GraphStore :=
  let embedding := L.embedding_service.map
    (fun svc => svc (Neo4jLoader._get_text_representation e))
  let labels := e.entity_type :: additional_labels
  let props := dmerge e.properties
    [("jsonld_schema", Json.str (jsonldDumps e.jsonld_schema)),
     ("domain", Json.str e.domain),
     ("confidence", Json.num e.confidence)]
  let props :=
    match embedding with
    | some emb => if jsonTruthy emb then dinsert props "embedding" emb else props
    | none => props
  let entity_id := loadEntityIdent e
  let props := dinsert props "id" entity_id
  (some entity_id, mergeNode st labels entity_id props)

/-- `Neo4jLoader.load_entities`: sequential loop, append each truthy returned
id. -/
def Neo4jLoader.load_entities (L : Neo4jLoader) (st : GraphStore)
    (es : List ExtractedEntity) : List Json × GraphStore :=
  es.foldl
    (fun acc e =>
      let r := Neo4jLoader.load_entity L acc.2 e []
      match r.1 with
      | some v => if jsonTruthy v then (acc.1 ++ [v], r.2) else (acc.1, r.2)
      | none => (acc.1, r.2))
    ([], st)

/-- `Neo4jLoader.load_relationship`: reject unknown types when a non-empty
registry was supplied, else attempt the edge write. -/
def Neo4jLoader.load_relationship (L : Neo4jLoader) (st : GraphStore)
    (from_id : Json) (from_type : String) (to_id : Json)
    (to_type rel_type : String) (props : List (String × Json)) :
    Bool × GraphStore :=
  if !L.valid_relationships.isEmpty && !L.valid_relationships.contains rel_type then
    (false, st)
  else edgeWriteAttempt st from_id from_type to_id to_type rel_type props

/-- `Neo4jLoader.load_entity_with_relationships`: load the node, then attempt
each relationship whose three fields are truthy (non-string field values reach
the Cypher text through f-string interpolation, hence `pyStr`). -/
def Neo4jLoader.load_entity_with_relationships (L : Neo4jLoader)
    (st : GraphStore) (e : ExtractedEntity) : Option Json × GraphStore :=
  match Neo4jLoader.load_entity L st e [] with
  | (none, st1) => (none, st1)
  | (some entity_id, st1) =>
    if !jsonTruthy entity_id then (none, st1)
    else
      (some entity_id,
        e.relationships.foldl
          (fun stAcc rel =>
            if optTruthy (dget rel "target_type") && optTruthy (dget rel "target_id")
                && optTruthy (dget rel "relationship_type") then
              (Neo4jLoader.load_relationship L stAcc entity_id e.entity_type
                ((dget rel "target_id").getD Json.null)
                (pyStr ((dget rel "target_type").getD Json.null))
                (pyStr ((dget rel "relationship_type").getD Json.null)) []).2
            else stAcc)
          st1)

/-! ## `BaseGraphLoader`
(`dagster-congress/src/shared/base_graph_loader.py`)

The variant that consults the Metamodel: `load_entity` resolves
`entity_type` through `get_node_type` and fails closed on `None`.  The
module-level `ONTOLOGY` registry it imports becomes a field. -/

/-- The `BaseGraphLoader` state: the imported node-type registry
(`schema.ontology.ONTOLOGY["nodes"]`), the relationship registry derived in
`__init__`, and the embedding service. -/
structure BaseGraphLoader where
  metamodel_nodes : List (String × NodeType)
  metamodel_rels : List (String × RelationshipType)
  embedding_service : Option (String → Json)

/-- `schema.ontology.get_node_type`: dict lookup, `None` when absent. -/
def BaseGraphLoader.get_node_type (L : BaseGraphLoader) (name : String) :
    Option NodeType :=
  dget L.metamodel_nodes name

/-- `__init__`: `self._valid_relationships = {r.name for r in
get_all_relationship_types()}`. -/
def BaseGraphLoader.valid_relationships (L : BaseGraphLoader) : List String :=
  L.metamodel_rels.map (fun kv => kv.2.name)

/-- The identity priority key list of `BaseGraphLoader._generate_id` (no
`cik`, unlike the corpus-core copy). -/
def baseIdPriorityKeys : List String :=
  ["number", "bioguide_id", "system_code", "name", "title"]

/-- The key string `BaseGraphLoader._generate_id` hashes. -/
def baseGenIdKeyStr (e : ExtractedEntity) : String :=
  let key_parts := e.entity_type ::
    (match baseIdPriorityKeys.findSome? (fun k => dget e.properties k) with
     | some v => [pyStr v]
     | none => [])
  ":".intercalate key_parts

/-- `BaseGraphLoader._generate_id`. -/
def BaseGraphLoader._generate_id (e : ExtractedEntity) : String :=
  strTake16 (sha256hex (baseGenIdKeyStr e))

/-- The key list of `BaseGraphLoader._get_text_representation` (no
`content`). -/
def baseTextReprKeys : List String :=
  ["name", "title", "number", "summary", "description"]

/-- `BaseGraphLoader._get_text_representation`. -/
def BaseGraphLoader._get_text_representation (e : ExtractedEntity) : String :=
  " ".intercalate
    (e.entity_type :: baseTextReprKeys.filterMap (fun k => (dget e.properties k).map pyStr))

/-- The node identity `BaseGraphLoader.load_entity` uses. -/
def baseLoadEntityIdent (e : ExtractedEntity) : Json :=
  pyOr (dget e.properties "id") (Json.str (BaseGraphLoader._generate_id e))

/-- `BaseGraphLoader.load_entity`: resolve the type through the Metamodel and
fail closed (`return None`, no write) when unknown; otherwise build props and
merge the node as the corpus-core loader does, with the node type's
`additional_labels` (`xs or []` is `xs` for a list). -/
def BaseGraphLoader.load_entity (L : BaseGraphLoader) (st : GraphStore)
    (e : ExtractedEntity) : Option Json × GraphStore :=
  match BaseGraphLoader.get_node_type L e.entity_type with
  | none => (none, st)
  | some nt =>
    let embedding := L.embedding_service.map
      (fun svc => svc (BaseGraphLoader._get_text_representation e))
    let labels := e.entity_type :: nt.additional_labels
    let props := dmerge e.properties
      [("jsonld_schema", Json.str (jsonldDumps e.jsonld_schema)),
       ("domain", Json.str e.domain),
       ("confidence", Json.num e.confidence)]
    let props :=
      match embedding with
      | some emb => if jsonTruthy emb then dinsert props "embedding" emb else props
      | none => props
    let entity_id := baseLoadEntityIdent e
    let props := dinsert props "id" entity_id
    (some entity_id, mergeNode st labels entity_id props)

/-- `BaseGraphLoader.load_entities`: sequential loop, append each truthy
returned id. -/
def BaseGraphLoader.load_entities (L : BaseGraphLoader) (st : GraphStore)
    (es : List ExtractedEntity) : List Json × GraphStore :=
  es.foldl
    (fun acc e =>
      let r := BaseGraphLoader.load_entity L acc.2 e
      match r.1 with
      | some v => if jsonTruthy v then (acc.1 ++ [v], r.2) else (acc.1, r.2)
      | none => (acc.1, r.2))
    ([], st)

/-! ## `BaseEntityExtractor`
(`corpus_core/extractors/base_extractor.py`)

`extract_from_text` is modelled from the completion response string onward
(the HTTP exchange is external I/O): `json.loads`, the `for raw in
raw_entities` loop, and `_annotate_entity`.  Python exceptions that escape —
`TypeError` from iterating a non-iterable, `AttributeError` from `.get` on a
non-dict, pydantic `ValidationError` from `ExtractedEntity(...)` — are the
explicit `Except PyErr` channel; only `json.JSONDecodeError` is caught. -/

/-- The Python exceptions the modelled extractor paths can raise. -/
inductive PyErr where
  | typeError
  | attributeError
  | validationError
deriving DecidableEq, Repr

/-- Python iteration `for x in v` over a JSON-shaped value: arrays yield
elements, dicts yield their keys, strings yield one-character strings,
scalars raise `TypeError`. -/
def pyIter : Json → Except PyErr (List Json)
  | .arr xs => .ok xs
  | .obj kvs => .ok (kvs.map (fun kv => Json.str kv.1))
  | .str s => .ok (s.data.map (fun c => Json.str (String.mk [c])))
  | _ => .error .typeError

/-- The default entity-type definitions used when none are supplied. -/
def defaultEntityTypes : List (List (String × Json)) :=
  [[("name", Json.str "PERSON"), ("description", Json.str "A person\x27s name")],
   [("name", Json.str "ORGANIZATION"), ("description", Json.str "An organization or company")],
   [("name", Json.str "LOCATION"), ("description", Json.str "A geographic location")],
   [("name", Json.str "DATE"), ("description", Json.str "A date or time reference")],
   [("name", Json.str "MONEY"), ("description", Json.str "A monetary value")]]

/-- The `BaseEntityExtractor` state: server parameters, the entity-type
definition dicts, and the domain. -/
structure BaseEntityExtractor where
  ollama_url : String
  model : String
  entity_types : List (List (String × Json))
  domain : String

/-- `BaseEntityExtractor.__init__`: `entity_types or` the default list. -/
def BaseEntityExtractor.init (ollama_url model : String)
    (entity_types : Option (List (List (String × Json)))) (domain : String) :
    BaseEntityExtractor :=
  ⟨ollama_url, model,
   (match entity_types with
    | some ets => if ets.isEmpty then defaultEntityTypes else ets
    | none => defaultEntityTypes),
   domain⟩

/-- `next((et for et in self.entity_types if et.get("name") ==
entity_type), None)`. -/
def findTypeDef (ets : List (List (String × Json))) (tv : Json) :
    Option (List (String × Json)) :=
  ets.find? (fun et =>
    match dget et "name" with
    | some nv => jsonBEq nv tv
    | none => false)

/-- One entry of the `mcp:tools` list (each `tool.get(...)` defaults to
`None`). -/
def buildTool (tool : List (String × Json)) : Json :=
  Json.obj
    [("name", (dget tool "name").getD Json.null),
     ("description", (dget tool "description").getD Json.null),
     ("cypher", (dget tool "cypher_template").getD Json.null),
     ("parameters", (dget tool "parameters").getD Json.null)]

/-- Build the `mcp:tools` list from `type_def["mcp_tools"]`: iterate it and
call `.get` on each element (non-dict elements raise `AttributeError`). -/
def buildTools (v : Json) : Except PyErr (List Json) := do
  let items ← pyIter v
  items.mapM (fun t =>
    match t with
    | Json.obj kvs => pure (buildTool kvs)
    | _ => Except.error PyErr.attributeError)

/-- pydantic validation of `ExtractedEntity(...)` as `_annotate_entity`
constructs it from one raw item: `entity_type` must be a string,
`properties` a dict, `relationships` a list of dicts, `confidence` a number
in [0,1] (default 0.5), `source_span` a string (default `""`). -/
def validateEntity (raw : List (String × Json)) (ts : String)
    (jsonld : JsonLDSchema) (domain : String) :
    Except PyErr ExtractedEntity := do
  let pkvs ←
    match (dget raw "properties").getD (Json.obj []) with
    | Json.obj pkvs => pure pkvs
    | _ => Except.error PyErr.validationError
  let rels ←
    match (dget raw "relationships").getD (Json.arr []) with
    | Json.arr rl =>
      rl.mapM (fun r =>
        match r with
        | Json.obj kvs => pure kvs
        | _ => Except.error PyErr.validationError)
    | _ => Except.error PyErr.validationError
  let conf ←
    match (dget raw "confidence").getD (Json.num (mkRat 1 2)) with
    | Json.num q =>
      if 0 ≤ q ∧ q ≤ 1 then pure q else Except.error PyErr.validationError
    | _ => Except.error PyErr.validationError
  let ss ←
    match (dget raw "source_span").getD (Json.str "") with
    | Json.str s => pure s
    | _ => Except.error PyErr.validationError
  pure ⟨ts, pkvs, rels, conf, ss, jsonld, domain, none⟩

/-- `BaseEntityExtractor._annotate_entity`: return `None` when the raw item's
`type` is missing or falsy; otherwise resolve the type definition (keeping
the item even when it does not resolve — `@type` falls back to `"Thing"`),
attach `mcp:tools` when the resolved definition has them, and construct the
validated entity. -/
def _annotate_entity (E : BaseEntityExtractor) (raw : List (String × Json)) :
    Except PyErr (Option ExtractedEntity) := do
  let entity_type := dget raw "type"
  if !optTruthy entity_type then pure none
  else
    let tv := entity_type.getD Json.null
    let type_def := findTypeDef E.entity_types tv
    let at_type : Json :=
      match type_def with
      | some td => (dget td "schema_org_type").getD (Json.str "Thing")
      | none => Json.str "Thing"
    let tools : Option (List Json) ←
      match type_def with
      | some td =>
        if dcontains td "mcp_tools" then do
          let ts ← buildTools ((dget td "mcp_tools").getD Json.null)
          pure (some ts)
        else pure none
      | none => pure none
    let jsonld : JsonLDSchema := ⟨at_type, tv, E.domain, tools⟩
    match tv with
    | Json.str ts => do
      let e ← validateEntity raw ts jsonld E.domain
      pure (some e)
    | _ => Except.error PyErr.validationError

/-- `BaseEntityExtractor.extract_from_text` from the completion response
string onward: `json.loads` (a `JSONDecodeError` is caught and yields `[]`),
then the annotation loop over the parsed value. -/
def extract_from_text (E : BaseEntityExtractor) (response : String) :
    Except PyErr (List ExtractedEntity) :=
  match json_loads response with
  | none => .ok []
  | some j => do
    let raws ← pyIter j
    raws.foldlM
      (fun acc raw => do
        let oe ←
          match raw with
          | Json.obj kvs => _annotate_entity E kvs
          | _ => Except.error PyErr.attributeError
        pure (match oe with
              | some e => acc ++ [e]
              | none => acc))
      ([] : List ExtractedEntity)

/-! ## Concrete instances used by witnesses and counterexamples -/

/-- A neutral JSON-LD annotation for hand-built entities. -/
def plainJsonLD (t : String) : JsonLDSchema :=
  ⟨Json.str "Thing", Json.str t, "generic", none⟩

/-- The spec example entity: `{entity_type: "Bill", properties: {number:
"H.R.1", title: "x"}}`. -/
def billEntity : ExtractedEntity :=
  ⟨"Bill", [("number", Json.str "H.R.1"), ("title", Json.str "x")],
   [], mkRat 1 2, "", plainJsonLD "Bill", "generic", none⟩

/-- The spec example entity with an explicit (truthy) `id` property. -/
def billEntityWithId : ExtractedEntity :=
  ⟨"Bill", [("id", Json.str "X123"), ("number", Json.str "H.R.1")],
   [], mkRat 1 2, "", plainJsonLD "Bill", "generic", none⟩

/-- The spec example entity with an empty-string (falsy) `id` property. -/
def billEntityEmptyId : ExtractedEntity :=
  ⟨"Bill", [("id", Json.str ""), ("number", Json.str "H.R.1"), ("title", Json.str "x")],
   [], mkRat 1 2, "", plainJsonLD "Bill", "generic", none⟩

/-- A Bill entity whose only property is a given `number` value. -/
def mkBillNum (v : String) : ExtractedEntity :=
  ⟨"Bill", [("number", Json.str v)], [], mkRat 1 2, "", plainJsonLD "Bill", "generic", none⟩

/-- An entity of a type no congressional registry knows, with one
relationship of an unregistered type. -/
def unknownEntity : ExtractedEntity :=
  ⟨"NotInOntology", [("name", Json.str "X")],
   [[("target_type", Json.str "Member"), ("target_id", Json.str "m1"),
     ("relationship_type", Json.str "SPONSORED")]],
   mkRat 1 2, "", plainJsonLD "NotInOntology", "generic", none⟩

/-- A sample node-type registry shaped like the congressional
`ONTOLOGY["nodes"]` (Bill / Member / Committee); the loaders are parametric
in the registry, so witnesses instantiate them with this one. -/
def congressNodes : List (String × NodeType) :=
  [("Bill", ⟨"Bill", [⟨"number", PropertyType.string, true, true, true, false, ""⟩],
     "A bill", "congressional", none, none, [], []⟩),
   ("Member", ⟨"Member", [⟨"bioguide_id", PropertyType.string, true, true, true, false, ""⟩],
     "A member", "congressional", none, none, [], ["Person"]⟩),
   ("Committee", ⟨"Committee", [⟨"system_code", PropertyType.string, true, true, true, false, ""⟩],
     "A committee", "congressional", none, none, [], ["Organization"]⟩)]

/-- A loader with no embedding service and an empty relationship registry. -/
def L0 : Neo4jLoader := Neo4jLoader.init none none

/-- A loader with a non-empty relationship registry. -/
def LR : Neo4jLoader := Neo4jLoader.init none (some ["SPONSORED_BY", "MEMBER_OF"])

/-- A Metamodel-consulting loader over the sample congressional registry. -/
def LB : BaseGraphLoader := ⟨congressNodes, [], none⟩

/-- The empty graph store. -/
def emptyStore : GraphStore := ⟨[], []⟩

/-- An ontology whose one property is both `unique` and `fulltext`. -/
def ontC2 : Ontology :=
  (Ontology.init "test" "1.0.0" "").register_node_type
    ⟨"Bill", [⟨"number", PropertyType.string, false, false, true, true, ""⟩],
     "A bill", "test", none, none, [], []⟩

/-- The spec's schema example: `Bill` with a unique (and indexed) `number`
and a fulltext (and indexed… not) `title`. -/
def billOntology : Ontology :=
  (Ontology.init "congressional" "1.0.0" "").register_node_type
    ⟨"Bill",
     [⟨"number", PropertyType.string, true, true, true, false, ""⟩,
      ⟨"title", PropertyType.text, false, false, false, true, ""⟩],
     "A bill", "congressional", none, none, [], []⟩

/-- A two-type ontology for the ordering witness. -/
def twoTypeOntology : Ontology :=
  ((Ontology.init "congressional" "1.0.0" "").register_node_type
    ⟨"Bill", [⟨"number", PropertyType.string, true, true, true, false, ""⟩],
     "A bill", "congressional", none, none, [], []⟩).register_node_type
    ⟨"Member", [⟨"bioguide_id", PropertyType.string, true, true, true, false, ""⟩],
     "A member", "congressional", none, none, [], ["Person"]⟩

/-- The default extractor (`BaseEntityExtractor()` with default arguments). -/
def E0 : BaseEntityExtractor :=
  BaseEntityExtractor.init "http://localhost:11434" "llama3.2" none "generic"

/-- The entity the default extractor returns for the raw item
`{"type": "UNKNOWN_XYZ"}`. -/
def expectedUnknownEntity : ExtractedEntity :=
  ⟨"UNKNOWN_XYZ", [], [], mkRat 1 2, "",
   ⟨Json.str "Thing", Json.str "UNKNOWN_XYZ", "generic", none⟩, "generic", none⟩

/-! ## Character-level string helpers

The generator claims compare arbitrary emitted statements; the first, last
and second-to-last characters separate the statement kinds without any
assumption on the interpolated names. -/

/-- The first character of a string. -/
def firstCh (s : String) : Option Char := s.data.head?

/-- The last character of a string. -/
def lastCh (s : String) : Option Char := s.data.getLast?

/-- The second-to-last character of a string. -/
def sndLastCh (s : String) : Option Char := s.data.reverse[1]?

/-- Does a statement line end in `" constraints"`?  (The node-section header
filter of the ordering claim.) -/
def endsWithConstraints (s : String) : Bool :=
  s.data.reverse.take 12 == (" constraints" : String).data.reverse

/-! ## Helper lemmas -/

instance : Finite Char :=
  Finite.of_injective (fun c : Char => (⟨c.toNat, c.val.toNat_lt_size⟩ : Fin 4294967296))
    (by
      intro a b h
      have h1 : a.toNat = b.toNat := congrArg Fin.val h
      exact Char.ext (UInt32.ext h1))

theorem head?_append_left {α : Type} (l₁ l₂ : List α) (a : α) (h : l₁.head? = some a) :
    (l₁ ++ l₂).head? = some a := by
  cases l₁ <;> simp_all

theorem firstCh_append_left {x : String} (y : String) {a : Char}
    (h : firstCh x = some a) : firstCh (x ++ y) = some a := by
  unfold firstCh at *
  rw [String.data_append]
  exact head?_append_left _ _ _ h

theorem lastCh_append_right {y : String} (x : String) {a : Char}
    (h : lastCh y = some a) : lastCh (x ++ y) = some a := by
  unfold lastCh at *
  rw [String.data_append]
  rw [List.getLast?_append]
  rw [h]
  rfl

theorem sndLastCh_append_right {y : String} (x : String)
    (h : 2 ≤ y.data.length) : sndLastCh (x ++ y) = sndLastCh y := by
  unfold sndLastCh
  rw [String.data_append, List.reverse_append]
  rw [List.getElem?_append]
  rw [if_pos (by simp only [List.length_reverse]; omega)]


theorem firstCh_uniqueStmt (n p : String) : firstCh (uniqueStmt n p) = some 'C' := by
  unfold uniqueStmt
  repeat apply firstCh_append_left
  rfl

theorem firstCh_existsStmt (n p : String) : firstCh (existsStmt n p) = some 'C' := by
  unfold existsStmt
  repeat apply firstCh_append_left
  rfl

theorem firstCh_idxStmt (n p : String) : firstCh (idxStmt n p) = some 'C' := by
  unfold idxStmt
  repeat apply firstCh_append_left
  rfl

theorem firstCh_ftStmt (n p : String) : firstCh (ftStmt n p) = some 'C' := by
  unfold ftStmt
  repeat apply firstCh_append_left
  rfl

theorem firstCh_vecStmt (n p : String) : firstCh (vecStmt n p) = some 'C' := by
  unfold vecStmt
  repeat apply firstCh_append_left
  rfl

theorem firstCh_relIdxStmt (n p : String) : firstCh (relIdxStmt n p) = some 'C' := by
  unfold relIdxStmt
  repeat apply firstCh_append_left
  rfl

theorem firstCh_nodeHeader (pre n post : String) (h : firstCh pre = some '/') :
    firstCh (pre ++ n ++ post) = some '/' := by
  apply firstCh_append_left
  apply firstCh_append_left
  exact h

theorem lastCh_uniqueStmt (n p : String) : lastCh (uniqueStmt n p) = some ';' := by
  unfold uniqueStmt
  apply lastCh_append_right
  rfl

theorem lastCh_existsStmt (n p : String) : lastCh (existsStmt n p) = some ';' := by
  unfold existsStmt
  apply lastCh_append_right
  rfl

theorem lastCh_idxStmt (n p : String) : lastCh (idxStmt n p) = some ';' := by
  unfold idxStmt
  apply lastCh_append_right
  rfl

theorem lastCh_ftStmt (n p : String) : lastCh (ftStmt n p) = some ';' := by
  unfold ftStmt
  apply lastCh_append_right
  rfl

theorem lastCh_vecStmt (n p : String) : lastCh (vecStmt n p) = some ';' := by
  unfold vecStmt
  apply lastCh_append_right
  rfl

theorem lastCh_relIdxStmt (n p : String) : lastCh (relIdxStmt n p) = some ';' := by
  unfold relIdxStmt
  apply lastCh_append_right
  rfl

theorem sndLastCh_uniqueStmt (n p : String) : sndLastCh (uniqueStmt n p) = some 'E' := by
  unfold uniqueStmt
  rw [sndLastCh_append_right _ (by decide)]
  rfl

theorem sndLastCh_existsStmt (n p : String) : sndLastCh (existsStmt n p) = some 'L' := by
  unfold existsStmt
  rw [sndLastCh_append_right _ (by decide)]
  rfl

theorem sndLastCh_idxStmt (n p : String) : sndLastCh (idxStmt n p) = some ')' := by
  unfold idxStmt
  rw [sndLastCh_append_right _ (by decide)]
  rfl

theorem sndLastCh_ftStmt (n p : String) : sndLastCh (ftStmt n p) = some ']' := by
  unfold ftStmt
  rw [sndLastCh_append_right _ (by decide)]
  rfl

theorem sndLastCh_vecStmt (n p : String) : sndLastCh (vecStmt n p) = some '\x7d' := by
  unfold vecStmt
  rw [sndLastCh_append_right _ (by decide)]
  rfl

theorem sndLastCh_relIdxStmt (n p : String) : sndLastCh (relIdxStmt n p) = some ')' := by
  unfold relIdxStmt
  rw [sndLastCh_append_right _ (by decide)]
  rfl

theorem ne_of_firstCh {s t : String} (h : firstCh s ≠ firstCh t) : s ≠ t := by
  intro he
  exact h (he ▸ rfl)

theorem ne_of_lastCh {s t : String} (h : lastCh s ≠ lastCh t) : s ≠ t := by
  intro he
  exact h (he ▸ rfl)

theorem ne_of_sndLastCh {s t : String} (h : sndLastCh s ≠ sndLastCh t) : s ≠ t := by
  intro he
  exact h (he ▸ rfl)

theorem shaRound_length (st : List Nat) (k w : Nat) :
    (shaRound st k w).length = st.length := by
  unfold shaRound
  split <;> rfl

theorem foldl_shaRound_length (l : List Nat) (ws : List Nat) (h : List Nat) :
    (l.foldl (fun st t => shaRound st (shaK.getD t 0) (ws.getD t 0)) h).length
      = h.length := by
  induction l generalizing h with
  | nil => rfl
  | cons x xs ih => rw [List.foldl_cons, ih, shaRound_length]

theorem compressBlock_length (h w : List Nat) :
    (compressBlock h w).length = h.length := by
  unfold compressBlock
  rw [List.length_zipWith, foldl_shaRound_length]
  omega

theorem foldl_compress_length (l : List Nat) (pb : List Nat) (h : List Nat) :
    (l.foldl (fun h i => compressBlock h (wordsOfBytes (blockAt pb i))) h).length
      = h.length := by
  induction l generalizing h with
  | nil => rfl
  | cons x xs ih => rw [List.foldl_cons, ih, compressBlock_length]

theorem flatMap4_length (l : List Nat) :
    (l.flatMap (fun v => [(v >>> 24) % 256, (v >>> 16) % 256, (v >>> 8) % 256, v % 256])).length
      = 4 * l.length := by
  induction l with
  | nil => rfl
  | cons x xs ih => simp [List.flatMap_cons, ih]; omega

theorem sha256_length (msg : List Nat) : (sha256 msg).length = 32 := by
  unfold sha256
  rw [flatMap4_length, foldl_compress_length]
  rfl

theorem hexOfBytes_length (bs : List Nat) : (hexOfBytes bs).length = 2 * bs.length := by
  unfold hexOfBytes
  induction bs with
  | nil => rfl
  | cons x xs ih => simp [List.flatMap_cons, ih]; omega

theorem sha256hex_data_length (s : String) : (sha256hex s).data.length = 64 := by
  unfold sha256hex
  show (hexOfBytes (sha256 (utf8Bytes s))).length = 64
  rw [hexOfBytes_length, sha256_length]

theorem generate_id_data_length (e : ExtractedEntity) :
    (Neo4jLoader._generate_id e).data.length = 16 := by
  unfold Neo4jLoader._generate_id strTake16
  show ((sha256hex (genIdKeyStr e)).data.take 16).length = 16
  rw [List.length_take, sha256hex_data_length]
  decide

theorem generate_id_ne_empty (e : ExtractedEntity) :
    Neo4jLoader._generate_id e ≠ "" := by
  intro h
  have h2 := generate_id_data_length e
  rw [h] at h2
  simp at h2

theorem loadEntityIdent_truthy (e : ExtractedEntity) :
    jsonTruthy (loadEntityIdent e) = true := by
  unfold loadEntityIdent pyOr
  have hg : jsonTruthy (Json.str (Neo4jLoader._generate_id e)) = true := by
    simp only [jsonTruthy, bne_iff_ne, ne_eq, decide_eq_true_eq]
    exact generate_id_ne_empty e
  cases hid : dget e.properties "id" with
  | some v =>
    by_cases hv : jsonTruthy v = true
    · simp [hv]
    · simp only [Bool.not_eq_true] at hv
      simp [hv, hg]
  | none => simp [hg]

theorem intercalate_pair (a b : String) : ":".intercalate [a, b] = a ++ ":" ++ b := rfl

/-- C1 (as amended): the loader uses a property value under the key `id`
verbatim as the node identity only when that value is truthy (`get("id") or
generate`); when `id` is absent — or present but falsy — the identity is the
SHA-256 digest of the `entity_type:first-priority-value` key string truncated
to 16 hex characters; for the spec's Bill example the key string is
`"Bill:H.R.1"` and the identity is its truncated digest. -/
theorem claim_C1 :
    (∀ e : ExtractedEntity,
      (∀ v, dget e.properties "id" = some v → jsonTruthy v = true → loadEntityIdent e = v)
      ∧ (dget e.properties "id" = none →
          loadEntityIdent e = Json.str (strTake16 (sha256hex (genIdKeyStr e))))
      ∧ (∀ v, dget e.properties "id" = some v → jsonTruthy v = false →
          loadEntityIdent e = Json.str (strTake16 (sha256hex (genIdKeyStr e)))))
    ∧ genIdKeyStr billEntity = "Bill:H.R.1"
    ∧ loadEntityIdent billEntity = Json.str "edfce1060a7c0244" := by
  refine ⟨fun e => ⟨?_, ?_, ?_⟩, ?_, ?_⟩
  · intro v hv ht
    unfold loadEntityIdent pyOr
    rw [hv]
    simp [ht]
  · intro hv
    unfold loadEntityIdent pyOr Neo4jLoader._generate_id
    rw [hv]
  · intro v hv ht
    unfold loadEntityIdent pyOr Neo4jLoader._generate_id
    rw [hv]
    simp [ht]
  · rfl
  · rfl

/-- Witness for C1: a truthy `id` is used verbatim; the two hash branches at
concrete entities. -/
theorem claim_C1_witness :
    loadEntityIdent billEntityWithId = Json.str "X123"
    ∧ loadEntityIdent billEntity = Json.str (strTake16 (sha256hex (genIdKeyStr billEntity)))
    ∧ loadEntityIdent billEntityEmptyId
        = Json.str (strTake16 (sha256hex (genIdKeyStr billEntityEmptyId))) :=
  ⟨(claim_C1.1 billEntityWithId).1 (Json.str "X123") rfl rfl,
   (claim_C1.1 billEntity).2.1 rfl,
   (claim_C1.1 billEntityEmptyId).2.2 (Json.str "") rfl rfl⟩

/-- Counterexample to C1 as stated: an entity whose properties map contains
the key `id` with value `""` does not get that value as its identity — the
falsy value falls through Python `or` to the generated hash. -/
theorem claim_C1_counterexample :
    dcontains billEntityEmptyId.properties "id" = true
    ∧ dget billEntityEmptyId.properties "id" = some (Json.str "")
    ∧ loadEntityIdent billEntityEmptyId = Json.str "edfce1060a7c0244"
    ∧ Json.str "edfce1060a7c0244" ≠ Json.str "" := by
  refine ⟨rfl, rfl, rfl, ?_⟩
  intro h
  injection h with h2
  exact absurd h2 (by decide)

/-- C7 (as amended): identity derivation is reproducible — equal
`entity_type` and equal first-present priority value give equal identities
regardless of all other properties — and injective before hashing: distinct
string-valued natural keys give distinct key strings.  (The truncated digest
itself cannot be injective; see the counterexample.) -/
theorem claim_C7_amended :
    (∀ e1 e2 : ExtractedEntity, e1.entity_type = e2.entity_type →
      idPriorityKeys.findSome? (fun k => dget e1.properties k)
        = idPriorityKeys.findSome? (fun k => dget e2.properties k) →
      Neo4jLoader._generate_id e1 = Neo4jLoader._generate_id e2)
    ∧ (∀ e1 e2 : ExtractedEntity, e1.entity_type = e2.entity_type →
      ∀ v1 v2 : String,
        idPriorityKeys.findSome? (fun k => dget e1.properties k) = some (Json.str v1) →
        idPriorityKeys.findSome? (fun k => dget e2.properties k) = some (Json.str v2) →
        v1 ≠ v2 → genIdKeyStr e1 ≠ genIdKeyStr e2) := by
  constructor
  · intro e1 e2 ht hf
    have hk : genIdKeyStr e1 = genIdKeyStr e2 := by
      unfold genIdKeyStr
      rw [ht, hf]
    unfold Neo4jLoader._generate_id
    rw [hk]
  · intro e1 e2 ht v1 v2 h1 h2 hne
    unfold genIdKeyStr
    rw [ht, h1, h2]
    simp only [pyStr]
    rw [intercalate_pair, intercalate_pair]
    intro he
    apply hne
    have hd := congrArg String.data he
    rw [String.data_append, String.data_append, String.data_append,
        String.data_append] at hd
    exact String.ext (List.append_cancel_left hd)

/-- Witness for C7: reproducibility at the Bill example and pre-hash
injectivity at `"a"` vs `"b"`. -/
theorem claim_C7_witness :
    Neo4jLoader._generate_id billEntity = Neo4jLoader._generate_id (mkBillNum "H.R.1")
    ∧ genIdKeyStr (mkBillNum "a") ≠ genIdKeyStr (mkBillNum "b") :=
  ⟨claim_C7_amended.1 billEntity (mkBillNum "H.R.1") rfl rfl,
   claim_C7_amended.2 (mkBillNum "a") (mkBillNum "b") rfl "a" "b" rfl rfl (by decide)⟩

/-- Counterexample to C7 as stated: the 16-hex-character truncated digest maps
the infinitude of natural-key values into a finite set, so two distinct
`number` values of Bill entities must collide (pigeonhole; the claim asserts
they always differ). -/
theorem claim_C7_counterexample :
    ∃ v w : String, v ≠ w ∧
      Neo4jLoader._generate_id (mkBillNum v) = Neo4jLoader._generate_id (mkBillNum w) := by
  by_contra hcon
  push_neg at hcon
  have hinj : Function.Injective (fun v => Neo4jLoader._generate_id (mkBillNum v)) := by
    intro a b hab
    by_contra hne
    exact hcon a b hne hab
  have hF : Function.Injective (fun v (i : Fin 16) =>
      (Neo4jLoader._generate_id (mkBillNum v)).data.getD i ' ') := by
    intro a b hab
    apply hinj
    simp only
    apply String.ext
    apply List.ext_getElem
    · rw [generate_id_data_length, generate_id_data_length]
    · intro n h1 h2
      have hn : n < 16 := by rw [generate_id_data_length] at h1; exact h1
      have hc := congrFun hab ⟨n, hn⟩
      simp only at hc
      rw [List.getD_eq_getElem _ _ h1, List.getD_eq_getElem _ _ h2] at hc
      exact hc
  haveI : Finite String := Finite.of_injective _ hF
  exact not_finite String

/-- C2 (as amended): within the index section the generator emits at most one
statement per property, with precedence (indexed ∧ ¬unique) > fulltext >
vector; the `unique` flag suppresses only the standard index (uniqueness
already implies one) while producing the uniqueness constraint in the
constraints section — so a property that is both unique and fulltext gets the
uniqueness constraint *and* a full-text index, not the claimed suppression. -/
theorem claim_C2_amended :
    ∀ (n : String) (p : PropertyDef),
      (indexLines n p).length ≤ 1
      ∧ (p.unique = true →
          constraintLines n p = [uniqueStmt n p.name]
          ∧ indexLines n p =
              (if p.fulltext then [ftStmt n p.name]
               else if p.prop_type = PropertyType.vector then [vecStmt n p.name]
               else []))
      ∧ (p.indexed = true → p.unique = false → indexLines n p = [idxStmt n p.name]) := by
  intro n p
  refine ⟨?_, ?_, ?_⟩
  · unfold indexLines
    split
    · simp
    · split
      · simp
      · split <;> simp
  · intro hu
    refine ⟨?_, ?_⟩
    · unfold constraintLines
      simp [hu]
    · unfold indexLines
      simp [hu]
  · intro hi hu
    unfold indexLines
    simp [hi, hu]

/-- Witness for C2: the unique-and-fulltext property of `ontC2` produces the
uniqueness constraint and the full-text index. -/
theorem claim_C2_witness :
    constraintLines "Bill"
        (⟨"number", PropertyType.string, false, false, true, true, ""⟩ : PropertyDef)
      = [uniqueStmt "Bill" "number"]
    ∧ indexLines "Bill"
        (⟨"number", PropertyType.string, false, false, true, true, ""⟩ : PropertyDef)
      = [ftStmt "Bill" "number"] := by
  have h := (claim_C2_amended "Bill"
    ⟨"number", PropertyType.string, false, false, true, true, ""⟩).2.1 rfl
  exact ⟨h.1, by simpa using h.2⟩

/-- Counterexample to C2 as stated: in `ontC2` the property `number` is both
unique and fulltext, and the generated schema contains the full-text index
statement alongside the uniqueness constraint — not "only the uniqueness
constraint and no full-text index". -/
theorem claim_C2_counterexample :
    ((ontC2.get_all_node_types.flatMap (fun nt => nt.properties)).any
        (fun p => p.unique && p.fulltext)) = true
    ∧ uniqueStmt "Bill" "number" ∈ schemaStatements ontC2
    ∧ ftStmt "Bill" "number" ∈ schemaStatements ontC2 := by
  refine ⟨rfl, ?_, ?_⟩ <;> decide

theorem load_relationship_reject (L : Neo4jLoader) (st : GraphStore) (fid : Json)
    (ft : String) (tid : Json) (tt rt : String) (props : List (String × Json))
    (h1 : L.valid_relationships ≠ []) (h2 : L.valid_relationships.contains rt = false) :
    Neo4jLoader.load_relationship L st fid ft tid tt rt props = (false, st) := by
  unfold Neo4jLoader.load_relationship
  have hc : (!L.valid_relationships.isEmpty && !L.valid_relationships.contains rt) = true := by
    rw [h2]
    simp [List.isEmpty_iff, h1]
  rw [if_pos hc]

theorem load_relationship_pass (L : Neo4jLoader) (st : GraphStore) (fid : Json)
    (ft : String) (tid : Json) (tt rt : String) (props : List (String × Json))
    (h : L.valid_relationships = [] ∨ L.valid_relationships.contains rt = true) :
    Neo4jLoader.load_relationship L st fid ft tid tt rt props
      = edgeWriteAttempt st fid ft tid tt rt props := by
  unfold Neo4jLoader.load_relationship
  have hc : (!L.valid_relationships.isEmpty && !L.valid_relationships.contains rt) = false := by
    rcases h with h | h
    · rw [h]
      rfl
    · rw [h]
      simp
  rw [if_neg (by rw [hc]; simp)]

theorem foldl_fixed {α β : Type} (f : α → β → α) (l : List β)
    (h : ∀ a, ∀ b ∈ l, f a b = a) : ∀ a, l.foldl f a = a := by
  induction l with
  | nil => intro a; rfl
  | cons x xs ih =>
    intro a
    rw [List.foldl_cons, h a x (List.mem_cons_self x xs)]
    exact ih (fun a b hb => h a b (List.mem_cons_of_mem _ hb)) a

/-- C10 (confirmed): relationship validation is skipped exactly when the
registry supplied at construction is empty; `load_relationship` rejects
(returns failure without touching the store) precisely when the registry is
non-empty and does not contain `relationship_type`, and otherwise attempts
the edge write. -/
theorem claim_C10 :
    ∀ (L : Neo4jLoader) (st : GraphStore) (fid : Json) (ft : String) (tid : Json)
      (tt rt : String) (props : List (String × Json)),
      (L.valid_relationships = [] →
        Neo4jLoader.load_relationship L st fid ft tid tt rt props
          = edgeWriteAttempt st fid ft tid tt rt props)
      ∧ (L.valid_relationships ≠ [] → L.valid_relationships.contains rt = false →
        Neo4jLoader.load_relationship L st fid ft tid tt rt props = (false, st))
      ∧ (L.valid_relationships.contains rt = true →
        Neo4jLoader.load_relationship L st fid ft tid tt rt props
          = edgeWriteAttempt st fid ft tid tt rt props) := by
  intro L st fid ft tid tt rt props
  exact ⟨fun h => load_relationship_pass L st fid ft tid tt rt props (Or.inl h),
         fun h1 h2 => load_relationship_reject L st fid ft tid tt rt props h1 h2,
         fun h => load_relationship_pass L st fid ft tid tt rt props (Or.inr h)⟩

/-- Witness for C10 at concrete loaders: empty registry attempts the write
for an arbitrary type; non-empty registry rejects an unknown type and passes
a known one. -/
theorem claim_C10_witness :
    Neo4jLoader.load_relationship L0 emptyStore (Json.str "a") "Bill"
        (Json.str "b") "Member" "ANY_REL" []
      = edgeWriteAttempt emptyStore (Json.str "a") "Bill" (Json.str "b") "Member" "ANY_REL" []
    ∧ Neo4jLoader.load_relationship LR emptyStore (Json.str "a") "Bill"
        (Json.str "b") "Member" "UNKNOWN_REL" [] = (false, emptyStore)
    ∧ Neo4jLoader.load_relationship LR emptyStore (Json.str "a") "Bill"
        (Json.str "b") "Member" "SPONSORED_BY" []
      = edgeWriteAttempt emptyStore (Json.str "a") "Bill" (Json.str "b") "Member" "SPONSORED_BY" [] :=
  ⟨(claim_C10 L0 emptyStore (Json.str "a") "Bill" (Json.str "b") "Member" "ANY_REL" []).1 rfl,
   (claim_C10 LR emptyStore (Json.str "a") "Bill" (Json.str "b") "Member" "UNKNOWN_REL" []).2.1
     (by decide) rfl,
   (claim_C10 LR emptyStore (Json.str "a") "Bill" (Json.str "b") "Member" "SPONSORED_BY" []).2.2 rfl⟩

/-- C4 (confirmed): with a non-empty registry, a relationship write whose
type is not registered returns `False` without any store write; and a
`load_entity_with_relationships` whose relationship types are all
unregistered behaves exactly as the bare node load — the node write stands
and the entity's id is still returned. -/
theorem claim_C4 :
    (∀ (L : Neo4jLoader) (st : GraphStore) (fid : Json) (ft : String) (tid : Json)
       (tt rt : String) (props : List (String × Json)),
      L.valid_relationships ≠ [] → L.valid_relationships.contains rt = false →
      Neo4jLoader.load_relationship L st fid ft tid tt rt props = (false, st))
    ∧ (∀ (L : Neo4jLoader) (st : GraphStore) (e : ExtractedEntity),
      L.valid_relationships ≠ [] →
      (∀ rel ∈ e.relationships,
        L.valid_relationships.contains
          (pyStr ((dget rel "relationship_type").getD Json.null)) = false) →
      Neo4jLoader.load_entity_with_relationships L st e
        = Neo4jLoader.load_entity L st e []) := by
  constructor
  · intro L st fid ft tid tt rt props h1 h2
    exact load_relationship_reject L st fid ft tid tt rt props h1 h2
  · intro L st e hL hrel
    unfold Neo4jLoader.load_entity_with_relationships
    have hle : Neo4jLoader.load_entity L st e []
        = (some (loadEntityIdent e), (Neo4jLoader.load_entity L st e []).2) := rfl
    rw [hle]
    simp only [loadEntityIdent_truthy e, Bool.not_true, Bool.false_eq_true, if_false]
    rw [foldl_fixed _ _ ?_ (Neo4jLoader.load_entity L st e []).2]
    · intro stAcc rel hmem
      by_cases htr : (optTruthy (dget rel "target_type") && optTruthy (dget rel "target_id")
          && optTruthy (dget rel "relationship_type")) = true
      · rw [if_pos htr]
        rw [load_relationship_reject _ _ _ _ _ _ _ _ hL (hrel rel hmem)]
      · rw [if_neg htr]

/-- Witness for C4: a loader with registry `{SPONSORED_BY, MEMBER_OF}`
rejects a `SPONSORED` edge without touching the store, and loading
`unknownEntity` (whose one relationship is of type `SPONSORED`) with
relationships leaves exactly the node write. -/
theorem claim_C4_witness :
    Neo4jLoader.load_relationship LR emptyStore (Json.str "a") "Bill"
        (Json.str "b") "Member" "SPONSORED" [] = (false, emptyStore)
    ∧ Neo4jLoader.load_entity_with_relationships LR emptyStore unknownEntity
      = Neo4jLoader.load_entity LR emptyStore unknownEntity [] :=
  ⟨claim_C4.1 LR emptyStore (Json.str "a") "Bill" (Json.str "b") "Member" "SPONSORED" []
     (by decide) rfl,
   claim_C4.2 LR emptyStore unknownEntity (by decide) (by
     intro rel hmem
     simp only [unknownEntity, List.mem_singleton] at hmem
     rw [hmem]
     rfl)⟩

theorem base_load_entity_unknown (L : BaseGraphLoader) (st : GraphStore)
    (e : ExtractedEntity) (h : BaseGraphLoader.get_node_type L e.entity_type = none) :
    BaseGraphLoader.load_entity L st e = (none, st) := by
  unfold BaseGraphLoader.load_entity
  rw [h]

/-- C5 (as amended): the Metamodel-consulting `BaseGraphLoader` fails closed
on an unknown `entity_type` — `load_entity` returns no identity and leaves
the store untouched, and a batch containing such an entity loads exactly as
the batch without it; the corpus-core `Neo4jLoader.load_entity`, by contrast,
performs no Metamodel check and returns an identity for every entity. -/
theorem claim_C5_amended :
    (∀ (L : BaseGraphLoader) (st : GraphStore) (e : ExtractedEntity),
      BaseGraphLoader.get_node_type L e.entity_type = none →
      BaseGraphLoader.load_entity L st e = (none, st))
    ∧ (∀ (L : BaseGraphLoader) (st : GraphStore) (es1 es2 : List ExtractedEntity)
        (bad : ExtractedEntity),
      BaseGraphLoader.get_node_type L bad.entity_type = none →
      BaseGraphLoader.load_entities L st (es1 ++ bad :: es2)
        = BaseGraphLoader.load_entities L st (es1 ++ es2))
    ∧ (∀ (L : Neo4jLoader) (st : GraphStore) (e : ExtractedEntity),
      (Neo4jLoader.load_entity L st e []).1 = some (loadEntityIdent e)) := by
  refine ⟨base_load_entity_unknown, ?_, fun L st e => rfl⟩
  intro L st es1 es2 bad hbad
  unfold BaseGraphLoader.load_entities
  rw [List.foldl_append, List.foldl_append, List.foldl_cons]
  congr 1
  rw [base_load_entity_unknown L _ bad hbad]

/-- Witness for C5: the sample congressional registry does not know
`NotInOntology`; the Metamodel-consulting loader skips it (alone and in a
batch) while the corpus-core loader derives an identity for the Bill
example. -/
theorem claim_C5_witness :
    BaseGraphLoader.load_entity LB emptyStore unknownEntity = (none, emptyStore)
    ∧ BaseGraphLoader.load_entities LB emptyStore [unknownEntity]
      = BaseGraphLoader.load_entities LB emptyStore []
    ∧ (Neo4jLoader.load_entity L0 emptyStore billEntity []).1
      = some (loadEntityIdent billEntity) :=
  ⟨claim_C5_amended.1 LB emptyStore unknownEntity rfl,
   claim_C5_amended.2.1 LB emptyStore [] [] unknownEntity rfl,
   claim_C5_amended.2.2 L0 emptyStore billEntity⟩

/-- Counterexample to C5 as stated: the corpus-core `Neo4jLoader.load_entity`
(also cited by the claim) loads an entity whose type is unknown to the
congressional registry anyway — it returns an identity and writes a node. -/
theorem claim_C5_counterexample :
    dget congressNodes unknownEntity.entity_type = none
    ∧ (Neo4jLoader.load_entity L0 emptyStore unknownEntity []).1
      = some (Json.str "822e70eee26ac08e")
    ∧ (Neo4jLoader.load_entity L0 emptyStore unknownEntity []).2.nodes.length = 1 :=
  ⟨rfl, rfl, rfl⟩

/-- C8 (as amended): a completion response that is not parseable as JSON at
all is caught (`JSONDecodeError`) and yields the empty sequence — in
particular the literal text `"not json"` — but a response that parses to a
JSON value of non-array shape is *not* caught: iterating a number raises
`TypeError`. -/
theorem claim_C8_amended :
    (∀ (E : BaseEntityExtractor) (r : String), json_loads r = none →
      extract_from_text E r = Except.ok [])
    ∧ (∀ E : BaseEntityExtractor, extract_from_text E "not json" = Except.ok [])
    ∧ (∀ (E : BaseEntityExtractor) (r : String) (q : Rat),
      json_loads r = some (Json.num q) →
      extract_from_text E r = Except.error PyErr.typeError) := by
  refine ⟨?_, ?_, ?_⟩
  · intro E r h
    unfold extract_from_text
    rw [h]
  · intro E
    unfold extract_from_text
    rw [show json_loads "not json" = none from rfl]
  · intro E r q h
    unfold extract_from_text
    rw [h]
    rfl

/-- Witness for C8: the literal `"not json"` yields the empty sequence; the
wrong-shape valid-JSON response `"5"` raises. -/
theorem claim_C8_witness :
    extract_from_text E0 "not json" = Except.ok []
    ∧ extract_from_text E0 "5" = Except.error PyErr.typeError :=
  ⟨claim_C8_amended.1 E0 "not json" rfl,
   claim_C8_amended.2.2 E0 "5" 5 rfl⟩

/-- Counterexample to C8 as stated: the response `"5"` is a valid-JSON value
of the wrong shape, and `extract_from_text` raises `TypeError` on it instead
of returning the empty sequence. -/
theorem claim_C8_counterexample :
    json_loads "5" = some (Json.num 5)
    ∧ extract_from_text E0 "5" = Except.error PyErr.typeError
    ∧ Except.error PyErr.typeError ≠ (Except.ok [] : Except PyErr (List ExtractedEntity)) := by
  refine ⟨rfl, rfl, ?_⟩
  intro h
  injection h

theorem validateEntity_fields (raw : List (String × Json)) (ts : String)
    (jsonld : JsonLDSchema) (dom : String) (e : ExtractedEntity)
    (h : validateEntity raw ts jsonld dom = Except.ok e) :
    e.entity_type = ts ∧ e.jsonld_schema = jsonld := by
  unfold validateEntity at h
  simp only [bind, Except.bind, pure, Except.pure] at h
  repeat' split at h
  all_goals try exact Except.noConfusion h
  all_goals
    injection h with h2
    exact h2 ▸ ⟨rfl, rfl⟩

theorem annotate_falsy (E : BaseEntityExtractor) (raw : List (String × Json))
    (h : optTruthy (dget raw "type") = false) :
    _annotate_entity E raw = Except.ok none := by
  simp only [_annotate_entity, h, Bool.not_false, if_true]
  rfl

/-- C9 (as amended): `_annotate_entity` drops an item exactly when its
declared `type` is missing or falsy; an item whose (truthy, string) type does
*not* resolve against the extractor's registered entity types is kept, not
dropped — it comes back with the default `@type` of `"Thing"` and no
query-tool metadata.  (Query-tool metadata is re-attached only when the type
resolves and its definition carries `mcp_tools`.) -/
theorem claim_C9_amended :
    ∀ (E : BaseEntityExtractor) (raw : List (String × Json)),
      (optTruthy (dget raw "type") = false → _annotate_entity E raw = Except.ok none)
      ∧ (∀ ts : String, dget raw "type" = some (Json.str ts) →
          findTypeDef E.entity_types (Json.str ts) = none →
          ∀ e, _annotate_entity E raw = Except.ok (some e) →
            e.entity_type = ts ∧ e.jsonld_schema.at_type = Json.str "Thing"
              ∧ e.jsonld_schema.mcp_tools = none) := by
  intro E raw
  constructor
  · exact annotate_falsy E raw
  · intro ts hty hnone e he
    by_cases hts : ts = ""
    · subst hts
      rw [annotate_falsy E raw (by rw [hty]; rfl)] at he
      exact Option.noConfusion (Except.ok.inj he)
    · have htr : (!optTruthy (some (Json.str ts))) = false := by
        simp [optTruthy, jsonTruthy, bne_iff_ne, hts]
      simp only [_annotate_entity, htr, Bool.false_eq_true, if_false, hty,
        Option.getD_some, hnone, bind, Except.bind, pure, Except.pure] at he
      cases hv : validateEntity raw ts ⟨Json.str "Thing", Json.str ts, E.domain, none⟩ E.domain with
      | error err =>
        rw [hv] at he
        exact Except.noConfusion he
      | ok e2 =>
        rw [hv] at he
        have h2 := validateEntity_fields raw ts _ E.domain e2 hv
        have he2 : e2 = e := Option.some.inj (Except.ok.inj he)
        subst he2
        exact ⟨h2.1, by rw [h2.2], by rw [h2.2]⟩

/-- Witness for C9: a falsy type is dropped; the kept `UNKNOWN_XYZ` entity
carries the default annotation. -/
theorem claim_C9_witness :
    _annotate_entity E0 [("type", Json.null)] = Except.ok none
    ∧ expectedUnknownEntity.entity_type = "UNKNOWN_XYZ"
      ∧ expectedUnknownEntity.jsonld_schema.at_type = Json.str "Thing"
      ∧ expectedUnknownEntity.jsonld_schema.mcp_tools = none :=
  ⟨(claim_C9_amended E0 [("type", Json.null)]).1 rfl,
   (claim_C9_amended E0 [("type", Json.str "UNKNOWN_XYZ")]).2 "UNKNOWN_XYZ" rfl rfl
     expectedUnknownEntity rfl⟩

/-- Counterexample to C9 as stated: the completion array item
`{"type": "UNKNOWN_XYZ"}` does not resolve against the default extractor's
entity types, yet the extractor returns it (annotated as `Thing`) instead of
silently dropping it. -/
theorem claim_C9_counterexample :
    findTypeDef E0.entity_types (Json.str "UNKNOWN_XYZ") = none
    ∧ extract_from_text E0 "[\x7b\x22type\x22: \x22UNKNOWN_XYZ\x22\x7d]"
      = Except.ok [expectedUnknownEntity]
    ∧ expectedUnknownEntity.entity_type = "UNKNOWN_XYZ" :=
  ⟨rfl, rfl, rfl⟩

theorem endsWC_true (x : String) : endsWithConstraints (x ++ " constraints") = true := by
  unfold endsWithConstraints
  rw [String.data_append, List.reverse_append]
  rw [List.take_append_eq_append_take]
  rw [List.take_of_length_le (by decide)]
  rw [show ((" constraints" : String).data.reverse.length) = 12 from by decide]
  simp

theorem endsWC_of_lastCh {s : String} {c : Char} (h : lastCh s = some c) (hc : c ≠ 's') :
    endsWithConstraints s = false := by
  unfold endsWithConstraints
  unfold lastCh at h
  rw [← List.head?_reverse] at h
  cases hrev : s.data.reverse with
  | nil =>
    rw [hrev] at h
    simp at h
  | cons a t =>
    rw [hrev] at h
    simp only [List.head?_cons, Option.some.injEq] at h
    by_contra hb
    rw [Bool.not_eq_false] at hb
    have heq : (a :: t).take 12 = (" constraints" : String).data.reverse := eq_of_beq hb
    have h1 := congrArg (fun l => l[0]?) heq
    simp only [List.getElem?_take] at h1
    rw [if_pos (by omega)] at h1
    simp only [List.getElem?_cons_zero] at h1
    rw [show ((" constraints" : String).data.reverse)[0]? = some 's' from by decide] at h1
    exact hc (h.symm.trans (Option.some.inj h1))

theorem endsWC_indexesHeader (x : String) :
    endsWithConstraints (x ++ " indexes") = false := by
  unfold endsWithConstraints
  rw [String.data_append, List.reverse_append]
  by_contra hb
  rw [Bool.not_eq_false] at hb
  have heq := eq_of_beq hb
  have h1 := congrArg (fun l => l[1]?) heq
  simp only [List.getElem?_take] at h1
  rw [if_pos (by omega)] at h1
  rw [List.getElem?_append] at h1
  rw [if_pos (by decide)] at h1
  exact absurd h1 (by decide)

theorem endsWC_constraintLines (n : String) (p : PropertyDef) (s : String)
    (hs : s ∈ constraintLines n p) : endsWithConstraints s = false := by
  unfold constraintLines at hs
  split at hs
  · rw [List.mem_singleton] at hs
    rw [hs]
    exact endsWC_of_lastCh (lastCh_uniqueStmt n p.name) (by decide)
  · split at hs
    · rw [List.mem_singleton] at hs
      rw [hs]
      exact endsWC_of_lastCh (lastCh_existsStmt n p.name) (by decide)
    · simp at hs

theorem endsWC_indexLines (n : String) (p : PropertyDef) (s : String)
    (hs : s ∈ indexLines n p) : endsWithConstraints s = false := by
  unfold indexLines at hs
  split at hs
  · rw [List.mem_singleton] at hs
    rw [hs]
    exact endsWC_of_lastCh (lastCh_idxStmt n p.name) (by decide)
  · split at hs
    · rw [List.mem_singleton] at hs
      rw [hs]
      exact endsWC_of_lastCh (lastCh_ftStmt n p.name) (by decide)
    · split at hs
      · rw [List.mem_singleton] at hs
        rw [hs]
        exact endsWC_of_lastCh (lastCh_vecStmt n p.name) (by decide)
      · simp at hs

theorem filter_endsWC_constraintBlock (nt : NodeType) :
    (nodeConstraintBlock nt).filter endsWithConstraints
      = ["// " ++ nt.name ++ " constraints"] := by
  unfold nodeConstraintBlock
  rw [List.filter_cons]
  rw [endsWC_true ("// " ++ nt.name)]
  simp only [if_true]
  rw [List.filter_append]
  rw [List.filter_eq_nil_iff.mpr (fun s hs => by
    rw [List.mem_flatMap] at hs
    obtain ⟨p, _, hsp⟩ := hs
    simp [endsWC_constraintLines nt.name p s hsp])]
  rfl

theorem filter_endsWC_indexBlock (nt : NodeType) :
    (nodeIndexBlock nt).filter endsWithConstraints = [] := by
  unfold nodeIndexBlock
  rw [List.filter_cons]
  rw [endsWC_indexesHeader ("// " ++ nt.name)]
  simp only [Bool.false_eq_true, if_false]
  rw [List.filter_append]
  rw [List.filter_eq_nil_iff.mpr (fun s hs => by
    rw [List.mem_flatMap] at hs
    obtain ⟨p, _, hsp⟩ := hs
    simp [endsWC_indexLines nt.name p s hsp])]
  rfl

theorem filter_endsWC_flatMap_constraint (nts : List NodeType) :
    (nts.flatMap nodeConstraintBlock).filter endsWithConstraints
      = nts.map (fun nt => "// " ++ nt.name ++ " constraints") := by
  induction nts with
  | nil => rfl
  | cons n ns ih =>
    rw [List.flatMap_cons, List.filter_append, filter_endsWC_constraintBlock, ih]
    rfl

theorem filter_endsWC_flatMap_index (nts : List NodeType) :
    (nts.flatMap nodeIndexBlock).filter endsWithConstraints = [] := by
  induction nts with
  | nil => rfl
  | cons n ns ih =>
    rw [List.flatMap_cons, List.filter_append, filter_endsWC_indexBlock, ih]
    rfl

theorem filter_endsWC_relLines (rts : List RelationshipType) :
    (rts.flatMap relIndexLines).filter endsWithConstraints = [] := by
  rw [List.filter_eq_nil_iff]
  intro s hs
  rw [List.mem_flatMap] at hs
  obtain ⟨rt, _, hsr⟩ := hs
  unfold relIndexLines at hsr
  rw [List.mem_flatMap] at hsr
  obtain ⟨p, _, hsp⟩ := hsr
  split at hsp
  · rw [List.mem_singleton] at hsp
    rw [hsp]
    simp [endsWC_of_lastCh (lastCh_relIdxStmt rt.name p.name) (by decide)]
  · simp at hsp

/-- C6 (confirmed): the generator is a pure function of the ontology value —
running it twice yields byte-identical output — and the node-type sections of
the emitted statement list (the lines ending in `" constraints"`) appear
exactly in the order `get_all_node_types` returns, which is the registries'
insertion order.  (The one hypothesis excludes a domain/version string that
itself ends in `" constraints"` and would confuse the line classifier, not
the generator.) -/
theorem claim_C6 (o : Ontology)
    (hver : endsWithConstraints ("// Ontology: " ++ o.domain ++ " v" ++ o.version) = false) :
    generate_neo4j_schema o = generate_neo4j_schema o
    ∧ (schemaStatements o).filter endsWithConstraints
      = o.get_all_node_types.map (fun nt => "// " ++ nt.name ++ " constraints") := by
  refine ⟨rfl, ?_⟩
  unfold schemaStatements
  rw [List.filter_append, List.filter_append, List.filter_append,
      List.filter_append, List.filter_append]
  rw [filter_endsWC_flatMap_constraint, filter_endsWC_flatMap_index,
      filter_endsWC_relLines]
  rw [show (introLines o).filter endsWithConstraints = [] from ?_]
  rw [show indexHeaderLines.filter endsWithConstraints = [] from by decide]
  rw [show relHeaderLines.filter endsWithConstraints = [] from by decide]
  · simp
  · unfold introLines
    simp only [List.filter_cons, hver]
    norm_num [show endsWithConstraints "// Auto-generated Neo4j schema from ontology" = false from by decide,
      show endsWithConstraints "// DO NOT EDIT - regenerate with schema generator" = false from by decide,
      show endsWithConstraints "" = false from by decide,
      show endsWithConstraints bannerLine = false from by decide,
      show endsWithConstraints "// Constraints" = false from by decide]

/-- Witness for C6 at the two-type ontology: the constraint-section headers
come out in registration order Bill, Member. -/
theorem claim_C6_witness :
    (schemaStatements twoTypeOntology).filter endsWithConstraints
      = twoTypeOntology.get_all_node_types.map (fun nt => "// " ++ nt.name ++ " constraints") :=
  (claim_C6 twoTypeOntology (by decide)).2

theorem count_le_one_flatMap {β : Type} (s : String) (f : β → List String)
    (hf : ∀ b, (f b).length ≤ 1) (l : List β) :
    (l.flatMap f).count s = l.countP (fun b => (f b).contains s) := by
  induction l with
  | nil => rfl
  | cons b bs ih =>
    rw [List.flatMap_cons, List.count_append, ih, List.countP_cons]
    have hcb : (f b).count s = if (f b).contains s then 1 else 0 := by
      cases hfb : f b with
      | nil => rfl
      | cons x xs =>
        cases xs with
        | nil =>
          cases hxs : x == s with
          | true =>
            have hx : x = s := eq_of_beq hxs
            simp [List.count_cons, List.contains_cons, hx]
          | false =>
            have hx : ¬(s = x) := fun h => (ne_of_beq_false hxs) h.symm
            simp [List.count_cons, List.contains_cons, hxs, hx]
        | cons y ys =>
          have := hf b
          rw [hfb] at this
          simp at this
    rw [hcb]
    omega

theorem ne_of_firstCh_slash {s t : String} (ht : firstCh t = some '/')
    (hs : firstCh s = some 'C') : ¬(t = s) := by
  intro h
  rw [h] at ht
  rw [hs] at ht
  exact absurd (Option.some.inj ht) (by decide)

theorem ne_empty_of_firstCh {s : String} (hs : firstCh s = some 'C') : ¬(("" : String) = s) := by
  intro h
  rw [← h] at hs
  exact absurd hs (by decide)

theorem constraintLines_len (n : String) (p : PropertyDef) :
    (constraintLines n p).length ≤ 1 := by
  unfold constraintLines
  split
  · simp
  · split <;> simp

theorem indexLines_len (n : String) (p : PropertyDef) :
    (indexLines n p).length ≤ 1 := by
  unfold indexLines
  split
  · simp
  · split
    · simp
    · split <;> simp

theorem count_constraint_section (s : String) (hs : firstCh s = some 'C')
    (nts : List NodeType) :
    ((nts.flatMap nodeConstraintBlock).count s)
      = (nts.flatMap (fun n => n.properties.map (fun q => (n.name, q)))).countP
          (fun oc => (constraintLines oc.1 oc.2).contains s) := by
  induction nts with
  | nil => rfl
  | cons n ns ih =>
    rw [List.flatMap_cons, List.count_append, ih, List.flatMap_cons, List.countP_append]
    congr 1
    unfold nodeConstraintBlock
    rw [List.count_cons, List.count_append]
    have hhead : ¬(("// " ++ n.name ++ " constraints") = s) :=
      ne_of_firstCh_slash (firstCh_nodeHeader "// " n.name " constraints" rfl) hs
    have hnil : (([""] : List String).count s) = 0 := by
      simp [List.count_cons, ne_empty_of_firstCh hs]
    rw [hnil, count_le_one_flatMap s _ (constraintLines_len n.name), List.countP_map]
    simp [hhead]
    rfl

theorem count_index_section (s : String) (hs : firstCh s = some 'C')
    (nts : List NodeType) :
    ((nts.flatMap nodeIndexBlock).count s)
      = (nts.flatMap (fun n => n.properties.map (fun q => (n.name, q)))).countP
          (fun oc => (indexLines oc.1 oc.2).contains s) := by
  induction nts with
  | nil => rfl
  | cons n ns ih =>
    rw [List.flatMap_cons, List.count_append, ih, List.flatMap_cons, List.countP_append]
    congr 1
    unfold nodeIndexBlock
    rw [List.count_cons, List.count_append]
    have hhead : ¬(("// " ++ n.name ++ " indexes") = s) :=
      ne_of_firstCh_slash (firstCh_nodeHeader "// " n.name " indexes" rfl) hs
    have hnil : (([""] : List String).count s) = 0 := by
      simp [List.count_cons, ne_empty_of_firstCh hs]
    rw [hnil, count_le_one_flatMap s _ (indexLines_len n.name), List.countP_map]
    simp [hhead]
    rfl

theorem count_rel_section (s : String) (rts : List RelationshipType)
    (h : ∀ rt ∈ rts, ∀ q ∈ rt.properties, relIdxStmt rt.name q.name ≠ s) :
    (rts.flatMap relIndexLines).count s = 0 := by
  rw [List.count_eq_zero]
  intro hmem
  rw [List.mem_flatMap] at hmem
  obtain ⟨rt, hrt, hsr⟩ := hmem
  unfold relIndexLines at hsr
  rw [List.mem_flatMap] at hsr
  obtain ⟨q, hq, hsp⟩ := hsr
  split at hsp
  · rw [List.mem_singleton] at hsp
    exact h rt hrt q hq hsp.symm
  · simp at hsp

theorem count_intro_zero (o : Ontology) (s : String) (hs : firstCh s = some 'C') :
    ((introLines o).count s) = 0 := by
  rw [List.count_eq_zero]
  intro hmem
  unfold introLines bannerLine at hmem
  have hver : firstCh ("// Ontology: " ++ o.domain ++ " v" ++ o.version) = some '/' := by
    repeat apply firstCh_append_left
    rfl
  simp only [List.mem_cons, List.not_mem_nil, or_false] at hmem
  rcases hmem with h|h|h|h|h|h|h|h
  · rw [h] at hs; exact absurd hs (by decide)
  · rw [h] at hs; exact absurd hs (by decide)
  · rw [h] at hs
    exact absurd (hver.symm.trans hs) (by decide)
  · rw [h] at hs; exact absurd hs (by decide)
  · rw [h] at hs; exact absurd hs (by decide)
  · rw [h] at hs; exact absurd hs (by decide)
  · rw [h] at hs; exact absurd hs (by decide)
  · rw [h] at hs; exact absurd hs (by decide)

theorem count_indexHeader_zero (s : String) (hs : firstCh s = some 'C') :
    (indexHeaderLines.count s) = 0 := by
  rw [List.count_eq_zero]
  intro hmem
  unfold indexHeaderLines bannerLine at hmem
  simp only [List.mem_cons, List.not_mem_nil, or_false] at hmem
  rcases hmem with h|h|h|h <;> (rw [h] at hs; exact absurd hs (by decide))

theorem count_relHeader_zero (s : String) (hs : firstCh s = some 'C') :
    (relHeaderLines.count s) = 0 := by
  rw [List.count_eq_zero]
  intro hmem
  unfold relHeaderLines bannerLine at hmem
  simp only [List.mem_cons, List.not_mem_nil, or_false] at hmem
  rcases hmem with h|h|h|h <;> (rw [h] at hs; exact absurd hs (by decide))

theorem two_le_countP {α : Type} [DecidableEq α] {l : List α} {a b : α}
    (ha : a ∈ l) (hb : b ∈ l) (hne : a ≠ b) (p : α → Bool)
    (hpa : p a = true) (hpb : p b = true) : 2 ≤ l.countP p := by
  have hperm := List.perm_cons_erase ha
  rw [hperm.countP_eq]
  rw [List.countP_cons]
  have hb' : b ∈ l.erase a := (List.mem_erase_of_ne (Ne.symm hne)).mpr hb
  have hpos : 0 < (l.erase a).countP p := List.countP_pos.mpr ⟨b, hb', hpb⟩
  rw [hpa, if_pos rfl]
  omega

/-- C3 (confirmed): for every registered node type and every property marked
unique, the generated statement list contains the uniqueness constraint
(named `{lowercased_type_name}_{property_name}_unique`) exactly once, and
contains the standard index statement (named
`{lowercased_type_name}_{property_name}_idx`) for that property zero times
even when the property is also marked indexed.  The hypotheses are the naming
sanity the spec's data model prescribes: the (type name, property name) pair
occurs once across the ontology, and no other registered name pair or
relationship index collides with the two statements at issue. -/
theorem claim_C3 (o : Ontology) (nt : NodeType) (p : PropertyDef)
    (hmem : nt ∈ o.get_all_node_types) (hp : p ∈ nt.properties) (hu : p.unique = true)
    (h1 : ((o.get_all_node_types.flatMap
        (fun n => n.properties.map (fun q => (n.name, q.name)))).count (nt.name, p.name)) = 1)
    (h2 : ∀ n ∈ o.get_all_node_types, ∀ q ∈ n.properties,
        uniqueStmt n.name q.name = uniqueStmt nt.name p.name →
        (n.name, q.name) = (nt.name, p.name))
    (h3 : ∀ n ∈ o.get_all_node_types, ∀ q ∈ n.properties,
        idxStmt n.name q.name = idxStmt nt.name p.name →
        (n.name, q.name) = (nt.name, p.name))
    (h4 : ∀ r ∈ o.get_all_relationship_types, ∀ q ∈ r.properties,
        relIdxStmt r.name q.name ≠ idxStmt nt.name p.name) :
    (schemaStatements o).count (uniqueStmt nt.name p.name) = 1
    ∧ (schemaStatements o).count (idxStmt nt.name p.name) = 0 := by
  have hfirstU : firstCh (uniqueStmt nt.name p.name) = some 'C' := firstCh_uniqueStmt _ _
  have hfirstI : firstCh (idxStmt nt.name p.name) = some 'C' := firstCh_idxStmt _ _
  have hQcount : ((o.get_all_node_types.flatMap
      (fun n => n.properties.map (fun q => (n.name, q)))).countP
        (fun oc => (oc.1, oc.2.name) == (nt.name, p.name))) = 1 := by
    have hmapeq : (o.get_all_node_types.flatMap
        (fun n => n.properties.map (fun q => (n.name, q.name))))
        = ((o.get_all_node_types.flatMap
            (fun n => n.properties.map (fun q => (n.name, q)))).map
              (fun oc => (oc.1, oc.2.name))) := by
      rw [List.map_flatMap]
      apply congrArg
      funext n
      rw [List.map_map]
      rfl
    rw [hmapeq] at h1
    rw [show ∀ (l : List (String × String)),
        l.count (nt.name, p.name) = l.countP (· == (nt.name, p.name)) from fun l => rfl] at h1
    rw [List.countP_map] at h1
    exact h1
  have hQmem : (nt.name, p) ∈ (o.get_all_node_types.flatMap
      (fun n => n.properties.map (fun q => (n.name, q)))) :=
    List.mem_flatMap.mpr ⟨nt, hmem, List.mem_map.mpr ⟨p, hp, rfl⟩⟩
  have hocp : ∀ oc ∈ (o.get_all_node_types.flatMap
      (fun n => n.properties.map (fun q => (n.name, q)))),
      ((oc.1, oc.2.name) == (nt.name, p.name)) = true → oc = (nt.name, p) := by
    intro oc hoc hq
    by_contra hne
    have h2c := two_le_countP hoc hQmem hne
      (fun oc => (oc.1, oc.2.name) == (nt.name, p.name)) hq (by simp)
    omega
  constructor
  · -- exactly one uniqueness constraint
    unfold schemaStatements
    rw [List.count_append, List.count_append, List.count_append,
        List.count_append, List.count_append]
    rw [count_intro_zero o _ hfirstU, count_indexHeader_zero _ hfirstU,
        count_relHeader_zero _ hfirstU]
    rw [count_constraint_section _ hfirstU, count_index_section _ hfirstU]
    rw [count_rel_section _ _ (fun rt _ q _ =>
      ne_of_sndLastCh (by rw [sndLastCh_relIdxStmt, sndLastCh_uniqueStmt]; decide))]
    have hiP : ((o.get_all_node_types.flatMap
        (fun n => n.properties.map (fun q => (n.name, q)))).countP
          (fun oc => (indexLines oc.1 oc.2).contains (uniqueStmt nt.name p.name))) = 0 := by
      rw [List.countP_eq_zero]
      intro oc _ hcont
      have hsmem := List.elem_iff.mp hcont
      unfold indexLines at hsmem
      split at hsmem
      · rw [List.mem_singleton] at hsmem
        exact absurd hsmem (ne_of_sndLastCh (by
          rw [sndLastCh_idxStmt, sndLastCh_uniqueStmt]; decide))
      · split at hsmem
        · rw [List.mem_singleton] at hsmem
          exact absurd hsmem (ne_of_sndLastCh (by
            rw [sndLastCh_ftStmt, sndLastCh_uniqueStmt]; decide))
        · split at hsmem
          · rw [List.mem_singleton] at hsmem
            exact absurd hsmem (ne_of_sndLastCh (by
              rw [sndLastCh_vecStmt, sndLastCh_uniqueStmt]; decide))
          · simp at hsmem
    have hcP : ((o.get_all_node_types.flatMap
        (fun n => n.properties.map (fun q => (n.name, q)))).countP
          (fun oc => (constraintLines oc.1 oc.2).contains (uniqueStmt nt.name p.name))) = 1 := by
      have hle : ((o.get_all_node_types.flatMap
          (fun n => n.properties.map (fun q => (n.name, q)))).countP
            (fun oc => (constraintLines oc.1 oc.2).contains (uniqueStmt nt.name p.name)))
          ≤ 1 := by
        rw [← hQcount]
        apply List.countP_mono_left
        intro oc hoc hcont
        obtain ⟨n, hn, hq0⟩ := List.mem_flatMap.mp hoc
        obtain ⟨q, hq, hqe⟩ := List.mem_map.mp hq0
        subst hqe
        have hsmem := List.elem_iff.mp hcont
        unfold constraintLines at hsmem
        split at hsmem
        · rw [List.mem_singleton] at hsmem
          have := h2 n hn q hq hsmem.symm
          simp [this]
        · split at hsmem
          · rw [List.mem_singleton] at hsmem
            exact absurd hsmem (ne_of_sndLastCh (by
              rw [sndLastCh_existsStmt, sndLastCh_uniqueStmt]; decide))
          · simp at hsmem
      have hge : 0 < ((o.get_all_node_types.flatMap
          (fun n => n.properties.map (fun q => (n.name, q)))).countP
            (fun oc => (constraintLines oc.1 oc.2).contains (uniqueStmt nt.name p.name))) := by
        rw [List.countP_pos]
        refine ⟨(nt.name, p), hQmem, ?_⟩
        unfold constraintLines
        rw [if_pos hu]
        simp [List.contains_cons]
      omega
    rw [hiP, hcP]
  · -- no standard index statement
    unfold schemaStatements
    rw [List.count_append, List.count_append, List.count_append,
        List.count_append, List.count_append]
    rw [count_intro_zero o _ hfirstI, count_indexHeader_zero _ hfirstI,
        count_relHeader_zero _ hfirstI]
    rw [count_constraint_section _ hfirstI, count_index_section _ hfirstI]
    rw [count_rel_section _ _ (fun rt hrt q hq => h4 rt hrt q hq)]
    have hcP : ((o.get_all_node_types.flatMap
        (fun n => n.properties.map (fun q => (n.name, q)))).countP
          (fun oc => (constraintLines oc.1 oc.2).contains (idxStmt nt.name p.name))) = 0 := by
      rw [List.countP_eq_zero]
      intro oc _ hcont
      have hsmem := List.elem_iff.mp hcont
      unfold constraintLines at hsmem
      split at hsmem
      · rw [List.mem_singleton] at hsmem
        exact absurd hsmem (ne_of_sndLastCh (by
          rw [sndLastCh_uniqueStmt, sndLastCh_idxStmt]; decide))
      · split at hsmem
        · rw [List.mem_singleton] at hsmem
          exact absurd hsmem (ne_of_sndLastCh (by
            rw [sndLastCh_existsStmt, sndLastCh_idxStmt]; decide))
        · simp at hsmem
    have hiP : ((o.get_all_node_types.flatMap
        (fun n => n.properties.map (fun q => (n.name, q)))).countP
          (fun oc => (indexLines oc.1 oc.2).contains (idxStmt nt.name p.name))) = 0 := by
      rw [List.countP_eq_zero]
      intro oc hoc hcont
      obtain ⟨n, hn, hq0⟩ := List.mem_flatMap.mp hoc
      obtain ⟨q, hq, hqe⟩ := List.mem_map.mp hq0
      subst hqe
      have hsmem := List.elem_iff.mp hcont
      unfold indexLines at hsmem
      split at hsmem
      next hbranch =>
        rw [List.mem_singleton] at hsmem
        have hnames := h3 n hn q hq hsmem.symm
        have hoceq : ((n.name, q) : String × PropertyDef) = (nt.name, p) := by
          apply hocp (n.name, q) hoc
          simp only
          rw [hnames]
          simp
        have hqp : q = p := by
          injection hoceq
        rw [hqp, hu] at hbranch
        simp at hbranch
      next =>
        split at hsmem
        · rw [List.mem_singleton] at hsmem
          exact absurd hsmem (ne_of_sndLastCh (by
            rw [sndLastCh_idxStmt, sndLastCh_ftStmt]; decide))
        · split at hsmem
          · rw [List.mem_singleton] at hsmem
            exact absurd hsmem (ne_of_sndLastCh (by
              rw [sndLastCh_idxStmt, sndLastCh_vecStmt]; decide))
          · simp at hsmem
    rw [hcP, hiP]

/-- Witness for C3 at the spec's Bill ontology: `bill_number_unique` appears
exactly once and `bill_number_idx` not at all, although `number` is also
marked indexed. -/
theorem claim_C3_witness :
    (schemaStatements billOntology).count (uniqueStmt "Bill" "number") = 1
    ∧ (schemaStatements billOntology).count (idxStmt "Bill" "number") = 0 :=
  claim_C3 billOntology
    ⟨"Bill",
     [⟨"number", PropertyType.string, true, true, true, false, ""⟩,
      ⟨"title", PropertyType.text, false, false, false, true, ""⟩],
     "A bill", "congressional", none, none, [], []⟩
    ⟨"number", PropertyType.string, true, true, true, false, ""⟩
    (by decide) (by decide) rfl (by decide) (by decide) (by decide) (by decide)
